import Mathlib

/-!
Verification of the worksheet-to-table transcoding pipeline of
typst-ReXLlenT (`src/lib.rs`), as a shallow embedding in Lean.

Embedding conventions:
* Machine integers (`u32`/`usize`) are `Nat`, with an explicit `% 2^32`
  where the Rust code performs wrapping `u32` arithmetic
  (`column_to_number`); `usize - 1` index computations appear as
  truncated `Nat` subtraction, and the theorems below carry the library
  invariant `1 ≤ index` wherever the Rust value is guaranteed nonzero.
* `f64` width/height values are never subjected to arithmetic by the
  code (they are only copied around), so they are represented by `Rat`
  to keep every definition decidable.
* Fallible Rust code returns `Except String`; a reachable Rust panic
  (`parts[1]` out of bounds in `parse_merge_range`) is an `Option`
  whose `none` marks the panic.
* The umya-spreadsheet object model is external to the repository; it
  is embedded as plain structures holding exactly the data the code
  reads.  Theme-indexed color resolution (`get_argb_with_theme`) is an
  external library call performed against the workbook's fixed theme,
  so a color is embedded as the string that call resolves to.
-/

deriving instance DecidableEq for Except

namespace ReXLlenT

/-! ### Externally rendered coordinate strings

`cell.get_coordinate().to_string()` is external library code.
Modelled from the spec: coordinates render as bijective base-26
column letters (A=1 … Z=26, AA=27 …) followed by the decimal row,
e.g. "B12". -/

/-- Fuel-indexed digit renderer (structural recursion, so that it
reduces inside the kernel): `digitsFuel step digit fuel n` peels one
digit `digit m` off `n = m + 1` and recurses on `step m`.  With
`fuel ≥ n` and `step m ≤ m` the fuel never runs out
(`digitsFuel_congr` below). -/
def digitsFuel (step : Nat → Nat) (digit : Nat → Char) :
    Nat → Nat → List Char
  | _, 0 => []
  | 0, _ + 1 => []
  | fuel + 1, m + 1 => digitsFuel step digit fuel (step m) ++ [digit m]

/-- Bijective base-26 column letters: 1 ↦ "A", 26 ↦ "Z", 27 ↦ "AA".
Satisfies `numberToColumnChars (n + 1) =
numberToColumnChars (n / 26) ++ [Char.ofNat (65 + n % 26)]`
(proved below as `numberToColumnChars_succ`). -/
def numberToColumnChars (n : Nat) : List Char :=
  digitsFuel (fun m => m / 26) (fun m => Char.ofNat (65 + m % 26)) n n

/-- Decimal digits of a positive number, most significant first.
Satisfies `natDigitsChars (n + 1) =
natDigitsChars ((n + 1) / 10) ++ [Char.ofNat (48 + (n + 1) % 10)]`
(proved below as `natDigitsChars_succ`). -/
def natDigitsChars (n : Nat) : List Char :=
  digitsFuel (fun m => (m + 1) / 10) (fun m => Char.ofNat (48 + (m + 1) % 10)) n n

/-- Decimal rendering of a natural number. -/
def natReprChars (n : Nat) : List Char :=
  if n = 0 then [Char.ofNat 48] else natDigitsChars n

/-- Modelled from the spec: the external `Coordinate::to_string`,
rendering e.g. column 2, row 12 as "B12". -/
def coordString (col row : Nat) : String :=
  String.mk (numberToColumnChars col ++ natReprChars row)

/-! ### Reference codec (`column_to_number`, `parse_cell_reference`,
`parse_merge_range`) -/

/-- Embeds `fn column_to_number(column: &str) -> u32`: left-to-right fold
`acc * 26 + (c - 'A' + 1)` in wrapping `u32` arithmetic. -/
def column_to_number (column : String) : Nat :=
  column.toList.foldl
    (fun acc c => (acc * 26 + (c.toNat - 65 + 1)) % 4294967296) 0

/-- Value of a digit string, most significant first. -/
def digitsToNat (cs : List Char) : Nat :=
  cs.foldl (fun acc c => acc * 10 + (c.toNat - 48)) 0

/-- Models Rust `str::parse::<u32>`: one optional leading `'+'`, then a
nonempty run of decimal digits whose value fits in `u32`; anything else
is a parse failure. -/
def parseU32 (s : String) : Option Nat :=
  let cs := s.toList
  let ds := if cs.head? = some '+' then cs.tail else cs
  if ds.isEmpty then Option.none
  else if ds.all Char.isDigit then
    if digitsToNat ds < 4294967296 then Option.some (digitsToNat ds)
    else Option.none
  else Option.none

/-- Embeds `fn parse_cell_reference(cell_ref: &str) -> (u32, u32)`: leading
alphabetic run through `column_to_number`, remainder through
`parse::<u32>().unwrap_or(0)`. -/
def parse_cell_reference (cell_ref : String) : Nat × Nat :=
  let colStr := cell_ref.toList.takeWhile Char.isAlpha
  let rowStr := cell_ref.toList.dropWhile Char.isAlpha
  (column_to_number (String.mk colStr), (parseU32 (String.mk rowStr)).getD 0)

/-- Rust `str::split(sep)` for a single-character separator: splits at
every occurrence, keeping empty fields, never returning an empty list. -/
def splitChar (sep : Char) : List Char → List (List Char)
  | [] => [[]]
  | c :: cs =>
    if c = sep then [] :: splitChar sep cs
    else
      match splitChar sep cs with
      | f :: rest => (c :: f) :: rest
      | [] => [[c]]

/-- Embeds `fn parse_merge_range(range: &str) -> (String, String)`: collects
the `':'`-split fields and indexes `parts[0]`/`parts[1]`.  `none`
models the Rust index-out-of-bounds panic when there is no `':'`
(the split then yields a single field and `parts[1]` is out of range). -/
def parse_merge_range (range : String) : Option (String × String) :=
  match (splitChar ':' range.toList).map String.mk with
  | p0 :: p1 :: _ => Option.some (p0, p1)
  | _ => Option.none

/-! ### The worksheet object model (external umya-spreadsheet data,
embedded as the data the code reads) -/

/-- Horizontal alignment; `other` stands for every variant the code
maps to "default". -/
inductive HorizontalAlignmentValues where
  | left
  | center
  | right
  | other
deriving DecidableEq

/-- Vertical alignment; `other` stands for every variant the code maps
to "default". -/
inductive VerticalAlignmentValues where
  | bottom
  | center
  | top
  | other
deriving DecidableEq

/-- Border style; the code only distinguishes `None` from everything
else (`other`). -/
inductive BorderStyleValues where
  | none
  | other
deriving DecidableEq

/-- Underline style; the code only distinguishes `None` from everything
else (`other`). -/
inductive UnderlineValues where
  | none
  | other
deriving DecidableEq

/-- A style color.  `argbWithTheme` is the string the external call
`get_argb_with_theme(book.get_theme())` resolves to against the
workbook's (fixed, per-call) theme. -/
structure SrcColor where
  argbWithTheme : String
deriving DecidableEq

/-- One side of a cell border. -/
structure SrcBorderSide where
  style : BorderStyleValues
deriving DecidableEq

/-- The four border sides the code reads. -/
structure SrcBorders where
  left : SrcBorderSide
  right : SrcBorderSide
  top : SrcBorderSide
  bottom : SrcBorderSide
deriving DecidableEq

/-- The alignment pair the code reads. -/
structure SrcAlignment where
  horizontal : HorizontalAlignmentValues
  vertical : VerticalAlignmentValues
deriving DecidableEq

/-- The font attributes the code reads. -/
structure SrcFont where
  bold : Bool
  italic : Bool
  size : Rat
  color : SrcColor
  underline : UnderlineValues
  strike : Bool
deriving DecidableEq

/-- A cell's style: the four optional sub-objects the code reads. -/
structure SrcStyle where
  alignment : Option SrcAlignment
  borders : Option SrcBorders
  backgroundColor : Option SrcColor
  font : Option SrcFont
deriving DecidableEq

/-- A worksheet cell: 1-based coordinate, the raw value's error flag,
the display text, and the style. -/
structure Cell where
  col : Nat
  row : Nat
  rawIsError : Bool
  displayValue : String
  style : SrcStyle
deriving DecidableEq

/-- Embeds `cell.get_coordinate().to_string()`. -/
def Cell.coordinateString (c : Cell) : String :=
  coordString c.col c.row

/-- An explicit column-width record (`get_col_num`, `get_width`). -/
structure ColumnDimension where
  colNum : Nat
  width : Rat
deriving DecidableEq

/-- An explicit row-height record (`get_row_num`, `get_height`). -/
structure RowDimension where
  rowNum : Nat
  height : Rat
deriving DecidableEq

/-- Embeds `get_sheet_format_properties`: the sheet-wide defaults. -/
structure SheetFormatProperties where
  defaultColumnWidth : Rat
  defaultRowHeight : Rat
deriving DecidableEq

/-- A worksheet: sparse cell set, merge-range strings, explicit
column/row dimension records, sheet format properties. -/
structure Worksheet where
  cells : List Cell
  mergeCellRanges : List String
  columnDimensions : List ColumnDimension
  rowDimensions : List RowDimension
  formatProperties : SheetFormatProperties
deriving DecidableEq

/-- A workbook: its sheets (the theme is folded into `SrcColor`). -/
structure Spreadsheet where
  sheets : List Worksheet
deriving DecidableEq

/-! ### Output data model (the `Serialize` structs of `lib.rs`) -/

/-- Output `TableDimensions`. -/
structure TableDimensions where
  columns : List Rat
  rows : List Rat
  maxColumns : Option Nat
  maxRows : Option Nat
deriving DecidableEq

/-- Output `Alignment`. -/
structure Alignment where
  horizontal : String
  vertical : String
deriving DecidableEq

/-- Output `Border`. -/
structure Border where
  left : Bool
  right : Bool
  top : Bool
  bottom : Bool
deriving DecidableEq

/-- Output `FontStyle`. -/
structure FontStyle where
  bold : Bool
  italic : Bool
  size : Rat
  color : Option String
  underline : Bool
  strike : Bool
deriving DecidableEq

/-- Output `CellStyle`. -/
structure CellStyle where
  alignment : Option Alignment
  border : Option Border
  color : Option String
  font : Option FontStyle
deriving DecidableEq

/-- Output `CellData`. -/
structure CellData where
  value : String
  column : Nat
  style : Option CellStyle
deriving DecidableEq

/-- Output `RowData`. -/
structure RowData where
  row_number : Nat
  cells : List CellData
deriving DecidableEq

/-- Output `Position`. -/
structure Position where
  row : Nat
  column : Nat
deriving DecidableEq

/-- Output `MergedCell`; the Rust field `end` is `stop` here
(`end` is a Lean keyword). -/
structure MergedCell where
  range : String
  start : Position
  stop : Position
deriving DecidableEq

/-- Output `TableData`. -/
structure TableData where
  dimensions : TableDimensions
  rows : List RowData
  merged_cells : List MergedCell
deriving DecidableEq

/-! ### The pipeline functions of `lib.rs` -/

/-- Embeds `fn get_table_dimensions`: running maxima of the parsed coordinate
of every cell in the collection; error when either maximum is zero. -/
def get_table_dimensions (worksheet : Worksheet) : Except String (Nat × Nat) :=
  let m := worksheet.cells.foldl
    (fun (acc : Nat × Nat) cell =>
      let p := parse_cell_reference cell.coordinateString
      (max acc.1 p.1, max acc.2 p.2)) (0, 0)
  if m.1 = 0 ∨ m.2 = 0 then Except.error "No data found in the worksheet"
  else Except.ok m

/-- Embeds `fn get_column_widths`: dense default-initialized array of length
`max_col`, overwritten at `col_num - 1` for each in-bounds explicit
column-dimension record. -/
def get_column_widths (worksheet : Worksheet) (maxCol : Nat)
    (defaultWidth : Rat) : List Rat :=
  worksheet.columnDimensions.foldl
    (fun columns col =>
      let colIdx := col.colNum - 1
      if colIdx < columns.length then columns.set colIdx col.width
      else columns)
    (List.replicate maxCol defaultWidth)

/-- Embeds `fn get_row_heights`: dense default-initialized array of length
`max_row`, overwritten at `row_num - 1` for each in-bounds explicit
row-dimension record. -/
def get_row_heights (worksheet : Worksheet) (maxRow : Nat)
    (defaultHeight : Rat) : List Rat :=
  worksheet.rowDimensions.foldl
    (fun rows row =>
      let rowIdx := row.rowNum - 1
      if rowIdx < rows.length then rows.set rowIdx row.height
      else rows)
    (List.replicate maxRow defaultHeight)

/-- Embeds `fn cell_value`: the display text, or an error naming the cell's
address when the raw value is flagged as a formula error. -/
def cell_value (cell : Cell) : Except String String :=
  if cell.rawIsError then
    Except.error ("Error in cell " ++ cell.coordinateString)
  else Except.ok cell.displayValue

/-- Embeds `fn get_cell_alignment`. -/
def get_cell_alignment (cell : Cell) : Option Alignment :=
  match cell.style.alignment with
  | Option.none => Option.none
  | Option.some alignment =>
    Option.some {
      horizontal :=
        match alignment.horizontal with
        | HorizontalAlignmentValues.left => "left"
        | HorizontalAlignmentValues.center => "center"
        | HorizontalAlignmentValues.right => "right"
        | HorizontalAlignmentValues.other => "default"
      vertical :=
        match alignment.vertical with
        | VerticalAlignmentValues.bottom => "bottom"
        | VerticalAlignmentValues.center => "center"
        | VerticalAlignmentValues.top => "top"
        | VerticalAlignmentValues.other => "default" }

/-- Embeds `fn get_cell_border`: each side is `true` iff its style is not the
`None` variant. -/
def get_cell_border (cell : Cell) : Option Border :=
  match cell.style.borders with
  | Option.none => Option.none
  | Option.some border =>
    Option.some {
      left := decide (border.left.style ≠ BorderStyleValues.none)
      right := decide (border.right.style ≠ BorderStyleValues.none)
      top := decide (border.top.style ≠ BorderStyleValues.none)
      bottom := decide (border.bottom.style ≠ BorderStyleValues.none) }

/-- The alpha-stripping step shared by both color paths:
`if argb.len() == 8 { argb.chars().skip(2).collect() } else { argb }`
(ARGB strings are ASCII, so byte length and char count agree). -/
def stripAlpha (argb : String) : String :=
  if argb.toList.length = 8 then String.mk (argb.toList.drop 2) else argb

/-- Embeds `fn get_cell_bg_color`: `None` when the style has no background
color; otherwise the theme-resolved string, alpha-stripped — with an
empty resolution yielding `Some("")`. -/
def get_cell_bg_color (cell : Cell) : Option String :=
  match cell.style.backgroundColor with
  | Option.none => Option.none
  | Option.some color =>
    let argb := color.argbWithTheme
    if argb = "" then Option.some ""
    else Option.some (stripAlpha argb)

/-- Embeds `fn get_cell_font_style`: `None` when the style has no font;
otherwise the font attributes, with the font color alpha-stripped and
an empty resolution yielding an absent color. -/
def get_cell_font_style (cell : Cell) : Option FontStyle :=
  match cell.style.font with
  | Option.none => Option.none
  | Option.some font =>
    Option.some {
      bold := font.bold
      italic := font.italic
      size := font.size
      color :=
        let argb := font.color.argbWithTheme
        if argb = "" then Option.none
        else Option.some (stripAlpha argb)
      underline := decide (font.underline ≠ UnderlineValues.none)
      strike := font.strike }

/-- The `cell_style` expression of `to_typst` (lib.rs lines 276–301):
the whole record is gated on `parse_alignment || parse_font_style`,
and each field on its own flag. -/
def mkCellStyle (pa pb pbg pf : Bool) (cell : Cell) : Option CellStyle :=
  if pa || pf then
    Option.some {
      alignment := if pa then get_cell_alignment cell else Option.none
      border := if pb then get_cell_border cell else Option.none
      color := if pbg then get_cell_bg_color cell else Option.none
      font := if pf then get_cell_font_style cell else Option.none }
  else Option.none

/-- The `is_merged` test of `to_typst` (lib.rs lines 266–272). -/
def isMergedAt (mergedCells : List MergedCell) (rowNum colNum : Nat) : Bool :=
  mergedCells.any fun mc =>
    decide (mc.start.row ≤ rowNum ∧ rowNum ≤ mc.stop.row ∧
      mc.start.column ≤ colNum ∧ colNum ≤ mc.stop.column ∧
      ¬(rowNum = mc.start.row ∧ colNum = mc.start.column))

/-- One iteration of the merge-cell loop of `to_typst` (lib.rs lines
230–247); `none` models the `parse_merge_range` panic. -/
def parseMergedCell (range : String) : Option MergedCell :=
  match parse_merge_range range with
  | Option.none => Option.none
  | Option.some (startRef, endRef) =>
    let s := parse_cell_reference startRef
    let e := parse_cell_reference endRef
    Option.some {
      range := range
      start := { row := s.2, column := s.1 }
      stop := { row := e.2, column := e.1 } }

/-- The whole merge-cell loop of `to_typst`. -/
def buildMergedCells : List String → Option (List MergedCell)
  | [] => Option.some []
  | r :: rs =>
    match parseMergedCell r, buildMergedCells rs with
    | Option.some mc, Option.some tl => Option.some (mc :: tl)
    | _, _ => Option.none

/-- The per-row `col_cell_map` of `to_typst` (lib.rs lines 257–261):
a dense `None`-initialized array with each row cell written at its
parsed column minus one.  (The Rust indexed write panics out of
bounds; the library invariant `1 ≤ col ≤ max_col`, carried as a
hypothesis by the theorems, keeps every write in bounds, where
`List.set` agrees with it.) -/
def buildColCellMap (maxCol : Nat) (rowCells : List Cell) : List (Option Cell) :=
  rowCells.foldl
    (fun m cell =>
      let colNum := (parse_cell_reference cell.coordinateString).1
      m.set (colNum - 1) (Option.some cell))
    (List.replicate maxCol Option.none)

/-- The per-column loop of `to_typst` (lib.rs lines 264–310): skip
merge-suppressed columns, and for each occupied remaining column emit
value (propagating the `cell_value` error), column number and the
toggle-gated style. -/
def processCols (mergedCells : List MergedCell) (pa pb pbg pf : Bool)
    (rowNum : Nat) (colCellMap : List (Option Cell)) :
    List Nat → Except String (List CellData)
  | [] => Except.ok []
  | colNum :: rest =>
    if isMergedAt mergedCells rowNum colNum then
      processCols mergedCells pa pb pbg pf rowNum colCellMap rest
    else
      match colCellMap[colNum - 1]? with
      | Option.some (Option.some cell) =>
        match cell_value cell with
        | Except.error e => Except.error e
        | Except.ok v =>
          match processCols mergedCells pa pb pbg pf rowNum colCellMap rest with
          | Except.error e => Except.error e
          | Except.ok tl =>
            Except.ok
              ({ value := v, column := colNum
                 style := mkCellStyle pa pb pbg pf cell } :: tl)
      | _ => processCols mergedCells pa pb pbg pf rowNum colCellMap rest

/-- One iteration of the row loop of `to_typst`. -/
def processRow (mergedCells : List MergedCell) (pa pb pbg pf : Bool)
    (maxCol rowNum : Nat) (rowCells : List Cell) : Except String RowData :=
  match processCols mergedCells pa pb pbg pf rowNum
      (buildColCellMap maxCol rowCells) (List.range' 1 maxCol) with
  | Except.error e => Except.error e
  | Except.ok cells => Except.ok { row_number := rowNum, cells := cells }

/-- Embeds `worksheet.get_collection_by_row(&row_num)` (external library):
the cells whose row number matches. -/
def getCollectionByRow (ws : Worksheet) (rowNum : Nat) : List Cell :=
  ws.cells.filter (fun c => c.row == rowNum)

/-- The row loop of `to_typst` (lib.rs lines 249–315): rows left empty
after filtering are not pushed. -/
def buildRows (ws : Worksheet) (mergedCells : List MergedCell)
    (pa pb pbg pf : Bool) (maxCol : Nat) :
    List Nat → Except String (List RowData)
  | [] => Except.ok []
  | rowNum :: rest =>
    match processRow mergedCells pa pb pbg pf maxCol rowNum
        (getCollectionByRow ws rowNum) with
    | Except.error e => Except.error e
    | Except.ok rowData =>
      match buildRows ws mergedCells pa pb pbg pf maxCol rest with
      | Except.error e => Except.error e
      | Except.ok tl =>
        Except.ok (if rowData.cells.isEmpty then tl else rowData :: tl)

/-- Embeds `fn to_typst`, from the point where the workbook and the five
scalar arguments have been decoded (the xlsx reader, the UTF-8/scalar
decoding of the argument buffers, and the final TOML serialization are
external collaborators).  The outer `Option` marks the reachable Rust
panic of the merge-range loop. -/
def to_typst (book : Spreadsheet) (sheetIndex : Nat)
    (pa pb pbg pf : Bool) : Option (Except String TableData) :=
  match book.sheets[sheetIndex]? with
  | Option.none => Option.some (Except.error "Failed to get worksheet")
  | Option.some worksheet =>
    match get_table_dimensions worksheet with
    | Except.error e => Option.some (Except.error e)
    | Except.ok (maxCol, maxRow) =>
      match buildMergedCells worksheet.mergeCellRanges with
      | Option.none => Option.none
      | Option.some mergedCells =>
        let props := worksheet.formatProperties
        let dims : TableDimensions := {
          columns := get_column_widths worksheet maxCol props.defaultColumnWidth
          rows := get_row_heights worksheet maxRow props.defaultRowHeight
          maxColumns := Option.some maxCol
          maxRows := Option.some maxRow }
        match buildRows worksheet mergedCells pa pb pbg pf maxCol
            (List.range' 1 maxRow) with
        | Except.error e => Option.some (Except.error e)
        | Except.ok rows =>
          Option.some (Except.ok
            { dimensions := dims, rows := rows, merged_cells := mergedCells })

/-- Embeds `getrandom::Error::CUSTOM_START` (external constant, `1 << 31`). -/
def GETRANDOM_CUSTOM_START : Nat := 2147483648

/-- Embeds `const MY_CUSTOM_ERROR_CODE: u32 = Error::CUSTOM_START + 42`. -/
def MY_CUSTOM_ERROR_CODE : Nat := GETRANDOM_CUSTOM_START + 42

/-- Embeds `fn always_fail(_buf: &mut [u8]) -> Result<(), Error>`: the
registered entropy source.  It never touches the buffer (returned
unchanged) and always returns the fixed custom error. -/
def always_fail (buf : List Nat) : Except Nat Unit × List Nat :=
  (Except.error MY_CUSTOM_ERROR_CODE, buf)

/-! ### Specification-side derived definitions (used in theorem
statements only) -/

/-- The true maximum column index over a worksheet's cell set. -/
def trueMaxCol (ws : Worksheet) : Nat :=
  ws.cells.foldl (fun m c => max m c.col) 0

/-- The true maximum row index over a worksheet's cell set. -/
def trueMaxRow (ws : Worksheet) : Nat :=
  ws.cells.foldl (fun m c => max m c.row) 0

/-- The fold of `column_to_number` without the `u32` wrap-around. -/
def colVal (cs : List Char) : Nat :=
  cs.foldl (fun acc c => acc * 26 + (c.toNat - 65 + 1)) 0

/-- Library invariants on a worksheet that the Rust code relies on for
its panicking indexed writes: every cell coordinate is 1-based and fits
in `u32`, and no two cells share a coordinate. -/
def WorksheetWF (ws : Worksheet) : Prop :=
  (∀ c ∈ ws.cells,
    1 ≤ c.col ∧ 1 ≤ c.row ∧ c.col < 4294967296 ∧ c.row < 4294967296) ∧
  ws.cells.Pairwise (fun a b => (a.col, a.row) ≠ (b.col, b.row))

instance (ws : Worksheet) : Decidable (WorksheetWF ws) := by
  unfold WorksheetWF
  infer_instance

/-- A lowercase hexadecimal digit. -/
def isLowerHexDigit (c : Char) : Bool :=
  c.isDigit || (97 ≤ c.toNat && c.toNat ≤ 102)

/-! ### Concrete inputs for witnesses and counterexamples -/

/-- A style with none of the four optional sub-objects. -/
def exPlainStyle : SrcStyle :=
  { alignment := Option.none, borders := Option.none,
    backgroundColor := Option.none, font := Option.none }

/-- Sheet defaults used by the example worksheets. -/
def exProps : SheetFormatProperties :=
  { defaultColumnWidth := 10, defaultRowHeight := 20 }

/-- A plain occupied cell at A1. -/
def exCellA1 : Cell :=
  { col := 1, row := 1, rawIsError := false, displayValue := "T",
    style := exPlainStyle }

/-- A formula-error cell at B1. -/
def exCellB1Err : Cell :=
  { col := 2, row := 1, rawIsError := true, displayValue := "",
    style := exPlainStyle }

/-- A worksheet whose only formula-error cell (B1) is merge-suppressed
under "A1:B1". -/
def exWsMergeErr : Worksheet :=
  { cells := [exCellA1, exCellB1Err], mergeCellRanges := ["A1:B1"],
    columnDimensions := [], rowDimensions := [], formatProperties := exProps }

/-- The workbook around `exWsMergeErr`. -/
def exBookMergeErr : Spreadsheet := { sheets := [exWsMergeErr] }

/-- A worksheet with an unmerged formula-error cell at B1. -/
def exWsErr : Worksheet :=
  { cells := [exCellA1, exCellB1Err], mergeCellRanges := [],
    columnDimensions := [], rowDimensions := [], formatProperties := exProps }

/-- The workbook around `exWsErr`. -/
def exBookErr : Spreadsheet := { sheets := [exWsErr] }

/-- A worksheet with explicit size records for column 1 and row 1. -/
def exWsDims : Worksheet :=
  { cells := [exCellA1], mergeCellRanges := [],
    columnDimensions := [{ colNum := 1, width := 42 }],
    rowDimensions := [{ rowNum := 1, height := 7 }],
    formatProperties := exProps }

/-- A border object with all four sides styled. -/
def exBorders : SrcBorders :=
  { left := { style := BorderStyleValues.other }
    right := { style := BorderStyleValues.other }
    top := { style := BorderStyleValues.other }
    bottom := { style := BorderStyleValues.other } }

/-- A cell at A1 carrying only border styling. -/
def exCellBorder : Cell :=
  { col := 1, row := 1, rawIsError := false, displayValue := "v",
    style := { exPlainStyle with borders := Option.some exBorders } }

/-- A worksheet holding only `exCellBorder`. -/
def exWsBorder : Worksheet :=
  { cells := [exCellBorder], mergeCellRanges := [],
    columnDimensions := [], rowDimensions := [], formatProperties := exProps }

/-- The workbook around `exWsBorder`. -/
def exBookBorder : Spreadsheet := { sheets := [exWsBorder] }

/-- A cell whose style has a background color that resolves to the
empty string. -/
def exCellEmptyBg : Cell :=
  { col := 1, row := 1, rawIsError := false, displayValue := "x",
    style := { exPlainStyle with
               backgroundColor := Option.some { argbWithTheme := "" } } }

/-- A cell whose style has a background color resolving to an
uppercase 8-digit ARGB string. -/
def exCellUpperBg : Cell :=
  { col := 1, row := 1, rawIsError := false, displayValue := "x",
    style := { exPlainStyle with
               backgroundColor := Option.some { argbWithTheme := "FFFF0000" } } }

/-! ## Theorems

### The digit renderers and their unfolding equations -/

theorem digitsFuel_congr (step : Nat → Nat) (digit : Nat → Char)
    (hstep : ∀ m, step m ≤ m) :
    ∀ f1 f2 n, n ≤ f1 → n ≤ f2 →
      digitsFuel step digit f1 n = digitsFuel step digit f2 n := by
  intro f1
  induction f1 with
  | zero =>
    intro f2 n h1 _
    interval_cases n
    cases f2 <;> rfl
  | succ g1 ih =>
    intro f2 n h1 h2
    match n, f2 with
    | 0, f2 => cases f2 <;> rfl
    | m + 1, g2 + 1 =>
      show digitsFuel step digit g1 (step m) ++ _ =
        digitsFuel step digit g2 (step m) ++ _
      rw [ih g2 (step m)
        (Nat.le_trans (Nat.le_trans (hstep m) (by omega)) (Nat.le_refl g1))
        (Nat.le_trans (hstep m) (by omega))]

theorem numberToColumnChars_succ (n : Nat) :
    numberToColumnChars (n + 1) =
      numberToColumnChars (n / 26) ++ [Char.ofNat (65 + n % 26)] := by
  show digitsFuel _ _ (n + 1) (n + 1) = _
  show digitsFuel _ _ n (n / 26) ++ _ = _
  rw [digitsFuel_congr _ _ (fun m => Nat.div_le_self m 26) n (n / 26) (n / 26)
    (Nat.div_le_self n 26) (Nat.le_refl _)]
  rfl

theorem natDigitsChars_succ (n : Nat) :
    natDigitsChars (n + 1) =
      natDigitsChars ((n + 1) / 10) ++ [Char.ofNat (48 + (n + 1) % 10)] := by
  show digitsFuel _ _ (n + 1) (n + 1) = _
  show digitsFuel _ _ n ((n + 1) / 10) ++ _ = _
  rw [digitsFuel_congr _ _
    (fun m => Nat.le_of_lt_succ (Nat.div_lt_self (Nat.succ_pos m) (by omega)))
    n ((n + 1) / 10) ((n + 1) / 10)
    (Nat.le_of_lt_succ (Nat.div_lt_self (Nat.succ_pos n) (by omega)))
    (Nat.le_refl _)]
  rfl

theorem letterChar_spec (k : Nat) (hk : k < 26) :
    (Char.ofNat (65 + k)).toNat = 65 + k ∧
    (Char.ofNat (65 + k)).isAlpha = true := by
  interval_cases k <;> exact ⟨by decide, by decide⟩

theorem digitChar_spec (k : Nat) (hk : k < 10) :
    (Char.ofNat (48 + k)).toNat = 48 + k ∧
    (Char.ofNat (48 + k)).isDigit = true ∧
    (Char.ofNat (48 + k)).isAlpha = false ∧
    Char.ofNat (48 + k) ≠ '+' := by
  interval_cases k <;> exact ⟨by decide, by decide, by decide, by decide⟩

theorem mem_numberToColumnChars (n : Nat) :
    ∀ c ∈ numberToColumnChars n, c.isAlpha = true := by
  induction n using Nat.strong_induction_on with
  | _ n ih =>
    match n with
    | 0 => intro c hc; cases hc
    | m + 1 =>
      rw [numberToColumnChars_succ]
      intro c hc
      rcases List.mem_append.mp hc with h | h
      · exact ih (m / 26) (Nat.lt_succ_of_le (Nat.div_le_self m 26)) c h
      · rcases List.mem_singleton.mp h with rfl
        exact (letterChar_spec (m % 26) (Nat.mod_lt m (by omega))).2

theorem mem_natDigitsChars (n : Nat) :
    ∀ c ∈ natDigitsChars n,
      c.isDigit = true ∧ c.isAlpha = false ∧ c ≠ '+' := by
  induction n using Nat.strong_induction_on with
  | _ n ih =>
    match n with
    | 0 => intro c hc; cases hc
    | m + 1 =>
      rw [natDigitsChars_succ]
      intro c hc
      rcases List.mem_append.mp hc with h | h
      · exact ih ((m + 1) / 10) (Nat.div_lt_self (Nat.succ_pos m) (by omega)) c h
      · rcases List.mem_singleton.mp h with rfl
        exact (digitChar_spec ((m + 1) % 10) (Nat.mod_lt (m + 1) (by omega))).2

theorem mem_natReprChars (n : Nat) :
    ∀ c ∈ natReprChars n,
      c.isDigit = true ∧ c.isAlpha = false ∧ c ≠ '+' := by
  unfold natReprChars
  by_cases h : n = 0
  · rw [if_pos h]
    intro c hc
    rcases List.mem_singleton.mp hc with rfl
    exact ⟨by decide, by decide, by decide⟩
  · rw [if_neg h]
    exact mem_natDigitsChars n

theorem natDigitsChars_ne_nil (n : Nat) (h : 1 ≤ n) :
    natDigitsChars n ≠ [] := by
  match n, h with
  | m + 1, _ =>
    rw [natDigitsChars_succ]
    simp

theorem natReprChars_ne_nil (n : Nat) : natReprChars n ≠ [] := by
  unfold natReprChars
  by_cases h : n = 0
  · rw [if_pos h]; simp
  · rw [if_neg h]; exact natDigitsChars_ne_nil n (by omega)

theorem colVal_numberToColumnChars (n : Nat) :
    colVal (numberToColumnChars n) = n := by
  induction n using Nat.strong_induction_on with
  | _ n ih =>
    match n with
    | 0 => rfl
    | m + 1 =>
      rw [numberToColumnChars_succ]
      unfold colVal
      rw [List.foldl_append]
      have hrec := ih (m / 26) (Nat.lt_succ_of_le (Nat.div_le_self m 26))
      unfold colVal at hrec
      rw [hrec, List.foldl_cons, List.foldl_nil,
        (letterChar_spec (m % 26) (Nat.mod_lt m (by omega))).1]
      omega

theorem foldl_col_mod (cs : List Char) :
    ∀ a : Nat,
      cs.foldl (fun acc c => (acc * 26 + (c.toNat - 65 + 1)) % 4294967296)
          (a % 4294967296) =
        (cs.foldl (fun acc c => acc * 26 + (c.toNat - 65 + 1)) a) % 4294967296 := by
  induction cs with
  | nil => intro a; rfl
  | cons c cs ih =>
    intro a
    rw [List.foldl_cons, List.foldl_cons]
    have key : (a % 4294967296 * 26 + (c.toNat - 65 + 1)) % 4294967296 =
        (a * 26 + (c.toNat - 65 + 1)) % 4294967296 := by
      omega
    rw [key, ← ih (a * 26 + (c.toNat - 65 + 1))]

theorem column_to_number_mk (cs : List Char) :
    column_to_number (String.mk cs) = colVal cs % 4294967296 := by
  show cs.foldl _ 0 = _
  have h0 : (0 : Nat) = 0 % 4294967296 := rfl
  rw [h0, foldl_col_mod cs 0]
  rfl

theorem column_to_number_numberToColumnChars (n : Nat) (h : n < 4294967296) :
    column_to_number (String.mk (numberToColumnChars n)) = n := by
  rw [column_to_number_mk, colVal_numberToColumnChars, Nat.mod_eq_of_lt h]

theorem digitsToNat_natDigitsChars (n : Nat) :
    digitsToNat (natDigitsChars n) = n := by
  induction n using Nat.strong_induction_on with
  | _ n ih =>
    match n with
    | 0 => rfl
    | m + 1 =>
      rw [natDigitsChars_succ]
      unfold digitsToNat
      rw [List.foldl_append]
      have hrec := ih ((m + 1) / 10) (Nat.div_lt_self (Nat.succ_pos m) (by omega))
      unfold digitsToNat at hrec
      rw [hrec, List.foldl_cons, List.foldl_nil,
        (digitChar_spec ((m + 1) % 10) (Nat.mod_lt (m + 1) (by omega))).1]
      omega

theorem digitsToNat_natReprChars (n : Nat) :
    digitsToNat (natReprChars n) = n := by
  unfold natReprChars
  by_cases h : n = 0
  · rw [if_pos h, h]; rfl
  · rw [if_neg h]; exact digitsToNat_natDigitsChars n

theorem parseU32_natReprChars (n : Nat) (h : n < 4294967296) :
    parseU32 (String.mk (natReprChars n)) = Option.some n := by
  have hchars := mem_natReprChars n
  have hne : natReprChars n ≠ [] := natReprChars_ne_nil n
  have hhead : (natReprChars n).head? ≠ some '+' := by
    match hx : natReprChars n, hne with
    | c :: cs, _ =>
      have := (hchars c (by rw [hx]; exact List.mem_cons_self c cs)).2.2
      simp [this]
  have hmk : (String.mk (natReprChars n)).toList = natReprChars n := rfl
  unfold parseU32
  simp only [hmk, if_neg hhead]
  rw [if_neg (by simpa [List.isEmpty_iff] using hne)]
  rw [if_pos (by
    rw [List.all_eq_true]
    intro c hc
    exact (hchars c hc).1)]
  rw [digitsToNat_natReprChars]
  rw [if_pos h]

theorem takeWhile_dropWhile_append (p : Char → Bool) (l1 l2 : List Char)
    (h1 : ∀ c ∈ l1, p c = true)
    (h2 : ∀ c, l2.head? = some c → p c = false) :
    (l1 ++ l2).takeWhile p = l1 ∧ (l1 ++ l2).dropWhile p = l2 := by
  induction l1 with
  | nil =>
    simp only [List.nil_append]
    match l2 with
    | [] => exact ⟨rfl, rfl⟩
    | c :: cs =>
      have := h2 c rfl
      rw [List.takeWhile_cons, List.dropWhile_cons, this]
      exact ⟨rfl, rfl⟩
  | cons c cs ih =>
    have hc := h1 c (List.mem_cons_self c cs)
    have ⟨ht, hd⟩ := ih (fun x hx => h1 x (List.mem_cons_of_mem c hx))
    rw [List.cons_append]
    simp [List.takeWhile_cons, List.dropWhile_cons, hc, ht, hd]

theorem parse_cell_reference_coordString (col row : Nat)
    (hc : col < 4294967296) (hr : row < 4294967296) :
    parse_cell_reference (coordString col row) = (col, row) := by
  have htd := takeWhile_dropWhile_append Char.isAlpha
    (numberToColumnChars col) (natReprChars row)
    (mem_numberToColumnChars col)
    (fun c hcc => by
      match hx : natReprChars row, natReprChars_ne_nil row with
      | d :: ds, _ =>
        rw [hx] at hcc
        have hdc : d = c := by simpa using hcc
        subst hdc
        exact (mem_natReprChars row d
          (by rw [hx]; exact List.mem_cons_self d ds)).2.1)
  have hmk : (String.mk (numberToColumnChars col ++ natReprChars row)).toList =
      numberToColumnChars col ++ natReprChars row := rfl
  unfold parse_cell_reference coordString
  simp only [hmk, htd.1, htd.2]
  rw [column_to_number_numberToColumnChars col hc, parseU32_natReprChars row hr]
  rfl

theorem parse_coordinateString (c : Cell)
    (h1 : c.col < 4294967296) (h2 : c.row < 4294967296) :
    parse_cell_reference c.coordinateString = (c.col, c.row) :=
  parse_cell_reference_coordString c.col c.row h1 h2

/-! ### The per-row column map -/

theorem foldl_set_length (l : List Cell) :
    ∀ init : List (Option Cell),
      (l.foldl (fun m cell =>
        let colNum := (parse_cell_reference cell.coordinateString).1
        m.set (colNum - 1) (Option.some cell)) init).length = init.length := by
  induction l with
  | nil => intro init; rfl
  | cons c cs ih =>
    intro init
    rw [List.foldl_cons, ih]
    exact List.length_set ..

theorem buildColCellMap_length (maxCol : Nat) (rowCells : List Cell) :
    (buildColCellMap maxCol rowCells).length = maxCol := by
  unfold buildColCellMap
  rw [foldl_set_length, List.length_replicate]

theorem foldl_set_inv (P : Cell → Nat → Prop) (l : List Cell) :
    ∀ init : List (Option Cell),
      (∀ k c, init[k]? = Option.some (Option.some c) → P c k) →
      (∀ c ∈ l, P c ((parse_cell_reference c.coordinateString).1 - 1)) →
      ∀ k c,
        (l.foldl (fun m cell =>
          let colNum := (parse_cell_reference cell.coordinateString).1
          m.set (colNum - 1) (Option.some cell)) init)[k]? =
            Option.some (Option.some c) → P c k := by
  induction l with
  | nil => intro init hinit _ k c h; exact hinit k c h
  | cons c0 cs ih =>
    intro init hinit hl k c h
    rw [List.foldl_cons] at h
    refine ih _ ?_ (fun x hx => hl x (List.mem_cons_of_mem c0 hx)) k c h
    intro k c hk
    by_cases hkk : (parse_cell_reference c0.coordinateString).1 - 1 = k
    · subst hkk
      by_cases hb : (parse_cell_reference c0.coordinateString).1 - 1 < init.length
      · rw [List.getElem?_set_self hb] at hk
        have hcc : c0 = c := by simpa using hk
        subst hcc
        exact hl c0 (List.mem_cons_self c0 cs)
      · rw [List.set_eq_of_length_le (by omega)] at hk
        exact hinit _ c hk
    · rw [List.getElem?_set_ne hkk] at hk
      exact hinit k c hk

theorem buildColCellMap_mem (maxCol : Nat) (rowCells : List Cell)
    (k : Nat) (cell : Cell)
    (h : (buildColCellMap maxCol rowCells)[k]? = Option.some (Option.some cell)) :
    cell ∈ rowCells ∧ (parse_cell_reference cell.coordinateString).1 - 1 = k := by
  refine foldl_set_inv
    (fun c k => c ∈ rowCells ∧ (parse_cell_reference c.coordinateString).1 - 1 = k)
    rowCells (List.replicate maxCol Option.none) ?_ (fun c hc => ⟨hc, rfl⟩) k cell h
  intro k c hk
  rcases Nat.lt_or_ge k maxCol with hlt | hge
  · rw [List.getElem?_replicate_of_lt hlt] at hk
    cases hk
  · rw [List.getElem?_eq_none (by rw [List.length_replicate]; omega)] at hk
    cases hk

theorem foldl_set_untouched (l : List Cell) :
    ∀ (init : List (Option Cell)) (k : Nat),
      (∀ c ∈ l, (parse_cell_reference c.coordinateString).1 - 1 ≠ k) →
      (l.foldl (fun m cell =>
        let colNum := (parse_cell_reference cell.coordinateString).1
        m.set (colNum - 1) (Option.some cell)) init)[k]? = init[k]? := by
  induction l with
  | nil => intro init k _; rfl
  | cons c0 cs ih =>
    intro init k hne
    rw [List.foldl_cons,
      ih _ k (fun x hx => hne x (List.mem_cons_of_mem c0 hx)),
      List.getElem?_set_ne (hne c0 (List.mem_cons_self c0 cs))]

theorem foldl_set_survives (l : List Cell) :
    ∀ init : List (Option Cell),
      l.Pairwise (fun a b =>
        (parse_cell_reference a.coordinateString).1 - 1 ≠
        (parse_cell_reference b.coordinateString).1 - 1) →
      ∀ cell ∈ l, (parse_cell_reference cell.coordinateString).1 - 1 < init.length →
        (l.foldl (fun m cell =>
          let colNum := (parse_cell_reference cell.coordinateString).1
          m.set (colNum - 1) (Option.some cell)) init)[
            (parse_cell_reference cell.coordinateString).1 - 1]? =
          Option.some (Option.some cell) := by
  induction l with
  | nil => intro _ _ cell hc; cases hc
  | cons c0 cs ih =>
    intro init hdist cell hcell hlen
    rw [List.foldl_cons]
    rcases List.mem_cons.mp hcell with rfl | hmem
    · rw [foldl_set_untouched cs _ _
        (fun x hx => ((List.pairwise_cons.mp hdist).1 x hx).symm)]
      exact List.getElem?_set_self hlen
    · exact ih _ (List.pairwise_cons.mp hdist).2 cell hmem
        (by rw [List.length_set]; exact hlen)

theorem buildColCellMap_survives (maxCol : Nat) (rowCells : List Cell)
    (hdist : rowCells.Pairwise (fun a b =>
      (parse_cell_reference a.coordinateString).1 - 1 ≠
      (parse_cell_reference b.coordinateString).1 - 1))
    (cell : Cell) (hcell : cell ∈ rowCells)
    (hlt : (parse_cell_reference cell.coordinateString).1 - 1 < maxCol) :
    (buildColCellMap maxCol rowCells)[
        (parse_cell_reference cell.coordinateString).1 - 1]? =
      Option.some (Option.some cell) := by
  unfold buildColCellMap
  exact foldl_set_survives rowCells _ hdist cell hcell
    (by rw [List.length_replicate]; exact hlt)

/-! ### The column loop -/

theorem cell_value_ok (cell : Cell) (v : String)
    (h : cell_value cell = Except.ok v) :
    cell.rawIsError = false ∧ v = cell.displayValue := by
  unfold cell_value at h
  split at h
  · cases h
  · rename_i hr
    cases h
    exact ⟨Bool.not_eq_true _ ▸ Bool.of_not_eq_true hr, rfl⟩

theorem cell_value_error (cell : Cell) (e : String)
    (h : cell_value cell = Except.error e) :
    cell.rawIsError = true ∧ e = "Error in cell " ++ cell.coordinateString := by
  unfold cell_value at h
  split at h
  · rename_i hr
    cases h
    exact ⟨hr, rfl⟩
  · cases h

theorem processCols_ok_mem (mergedCells : List MergedCell) (pa pb pbg pf : Bool)
    (rowNum : Nat) (colCellMap : List (Option Cell)) :
    ∀ (cols : List Nat) (tl : List CellData),
      processCols mergedCells pa pb pbg pf rowNum colCellMap cols = Except.ok tl →
      ∀ cd ∈ tl, cd.column ∈ cols ∧
        isMergedAt mergedCells rowNum cd.column = false ∧
        ∃ cell, colCellMap[cd.column - 1]? = Option.some (Option.some cell) ∧
          cell.rawIsError = false ∧ cd.value = cell.displayValue ∧
          cd.style = mkCellStyle pa pb pbg pf cell := by
  intro cols
  induction cols with
  | nil =>
    intro tl h cd hcd
    simp only [processCols] at h
    cases h
    cases hcd
  | cons colNum rest ih =>
    intro tl h cd hcd
    simp only [processCols] at h
    split at h
    · have := ih tl h cd hcd
      exact ⟨List.mem_cons_of_mem _ this.1, this.2⟩
    · rename_i hm
      split at h
      · rename_i cell hmap
        split at h
        · cases h
        · rename_i v hv
          split at h
          · cases h
          · rename_i tl2 htl2
            cases h
            rcases List.mem_cons.mp hcd with rfl | hmem
            · refine ⟨List.mem_cons_self _ _, ?_, cell, hmap, ?_, ?_, rfl⟩
              · simpa using hm
              · exact (cell_value_ok cell v hv).1
              · exact (cell_value_ok cell v hv).2
            · have := ih tl2 htl2 cd hmem
              exact ⟨List.mem_cons_of_mem _ this.1, this.2⟩
      · have := ih tl h cd hcd
        exact ⟨List.mem_cons_of_mem _ this.1, this.2⟩

theorem processCols_ok_of (mergedCells : List MergedCell) (pa pb pbg pf : Bool)
    (rowNum : Nat) (colCellMap : List (Option Cell)) :
    ∀ cols : List Nat,
      (∀ colNum ∈ cols, isMergedAt mergedCells rowNum colNum = false →
        ∀ cell, colCellMap[colNum - 1]? = Option.some (Option.some cell) →
          cell.rawIsError = false) →
      ∃ tl, processCols mergedCells pa pb pbg pf rowNum colCellMap cols =
        Except.ok tl := by
  intro cols
  induction cols with
  | nil => intro _; exact ⟨[], rfl⟩
  | cons colNum rest ih =>
    intro hcols
    have ⟨tl, htl⟩ := ih (fun x hx => hcols x (List.mem_cons_of_mem _ hx))
    simp only [processCols]
    split
    · exact ⟨tl, htl⟩
    · rename_i hm
      match hmap : colCellMap[colNum - 1]? with
      | Option.none => exact ⟨tl, htl⟩
      | Option.some Option.none => exact ⟨tl, htl⟩
      | Option.some (Option.some cell) =>
        have hne := hcols colNum (List.mem_cons_self _ _) (by simpa using hm)
          cell hmap
        have hcv : cell_value cell = Except.ok cell.displayValue := by
          unfold cell_value
          rw [if_neg (by simp [hne])]
        simp only [hcv, htl]
        exact ⟨_, rfl⟩

theorem processCols_error (mergedCells : List MergedCell) (pa pb pbg pf : Bool)
    (rowNum : Nat) (colCellMap : List (Option Cell)) :
    ∀ (cols : List Nat) (e : String),
      processCols mergedCells pa pb pbg pf rowNum colCellMap cols =
        Except.error e →
      ∃ colNum cell, colNum ∈ cols ∧
        isMergedAt mergedCells rowNum colNum = false ∧
        colCellMap[colNum - 1]? = Option.some (Option.some cell) ∧
        cell.rawIsError = true ∧
        e = "Error in cell " ++ cell.coordinateString := by
  intro cols
  induction cols with
  | nil => intro e h; cases h
  | cons colNum rest ih =>
    intro e h
    simp only [processCols] at h
    by_cases hm : isMergedAt mergedCells rowNum colNum
    · rw [if_pos hm] at h
      have ⟨c, cl, hc⟩ := ih e h
      exact ⟨c, cl, List.mem_cons_of_mem _ hc.1, hc.2⟩
    · rw [if_neg hm] at h
      rcases hmap : colCellMap[colNum - 1]? with _ | cello
      · simp only [hmap] at h
        have ⟨c, cl, hc⟩ := ih e h
        exact ⟨c, cl, List.mem_cons_of_mem _ hc.1, hc.2⟩
      rcases cello with _ | cell
      · simp only [hmap] at h
        have ⟨c, cl, hc⟩ := ih e h
        exact ⟨c, cl, List.mem_cons_of_mem _ hc.1, hc.2⟩
      · simp only [hmap] at h
        rcases hcv : cell_value cell with e2 | v
        · simp only [hcv] at h
          have hee : e2 = e := by injection h
          have := cell_value_error cell e2 hcv
          exact ⟨colNum, cell, List.mem_cons_self _ _,
            Bool.not_eq_true _ ▸ Bool.of_not_eq_true hm, hmap, this.1,
            hee ▸ this.2⟩
        · simp only [hcv] at h
          rcases hrest : processCols mergedCells pa pb pbg pf rowNum
              colCellMap rest with e2 | tl2
          · simp only [hrest] at h
            have hee : e2 = e := by injection h
            have ⟨c, cl, hc⟩ := ih e2 hrest
            exact ⟨c, cl, List.mem_cons_of_mem _ hc.1, hc.2.1, hc.2.2.1,
              hee ▸ hc.2.2.2⟩
          · simp only [hrest] at h
            cases h

theorem processCols_ok_forall (mergedCells : List MergedCell)
    (pa pb pbg pf : Bool) (rowNum : Nat) (colCellMap : List (Option Cell)) :
    ∀ (cols : List Nat) (tl : List CellData),
      processCols mergedCells pa pb pbg pf rowNum colCellMap cols =
        Except.ok tl →
      ∀ colNum ∈ cols, isMergedAt mergedCells rowNum colNum = false →
        ∀ cell, colCellMap[colNum - 1]? = Option.some (Option.some cell) →
          cell.rawIsError = false := by
  intro cols
  induction cols with
  | nil => intro tl _ colNum hc; cases hc
  | cons colNum0 rest ih =>
    intro tl h colNum hcol hm cell hmap
    simp only [processCols] at h
    rcases List.mem_cons.mp hcol with rfl | hmem
    · rw [if_neg (by simp [hm])] at h
      simp only [hmap] at h
      rcases hcv : cell_value cell with e2 | v
      · simp only [hcv] at h
        cases h
      · exact (cell_value_ok cell v hcv).1
    · by_cases hm0 : isMergedAt mergedCells rowNum colNum0
      · rw [if_pos hm0] at h
        exact ih tl h colNum hmem hm cell hmap
      · rw [if_neg hm0] at h
        rcases hmap0 : colCellMap[colNum0 - 1]? with _ | cello
        · simp only [hmap0] at h
          exact ih tl h colNum hmem hm cell hmap
        rcases cello with _ | cell0
        · simp only [hmap0] at h
          exact ih tl h colNum hmem hm cell hmap
        · simp only [hmap0] at h
          rcases hcv : cell_value cell0 with e2 | v
          · simp only [hcv] at h
            cases h
          · simp only [hcv] at h
            rcases hrest : processCols mergedCells pa pb pbg pf rowNum
                colCellMap rest with e2 | tl2
            · simp only [hrest] at h
              cases h
            · exact ih tl2 hrest colNum hmem hm cell hmap

/-! ### The row loop -/

theorem processRow_ok_mem (mergedCells : List MergedCell) (pa pb pbg pf : Bool)
    (maxCol rowNum : Nat) (rowCells : List Cell) (rd : RowData)
    (h : processRow mergedCells pa pb pbg pf maxCol rowNum rowCells =
      Except.ok rd) :
    rd.row_number = rowNum ∧
    ∀ cd ∈ rd.cells, cd.column ∈ List.range' 1 maxCol ∧
      isMergedAt mergedCells rowNum cd.column = false ∧
      ∃ cell,
        (buildColCellMap maxCol rowCells)[cd.column - 1]? =
          Option.some (Option.some cell) ∧
        cell.rawIsError = false ∧ cd.value = cell.displayValue ∧
        cd.style = mkCellStyle pa pb pbg pf cell := by
  unfold processRow at h
  split at h
  · cases h
  · rename_i cells hcells
    cases h
    exact ⟨rfl, processCols_ok_mem mergedCells pa pb pbg pf rowNum
      (buildColCellMap maxCol rowCells) (List.range' 1 maxCol) cells hcells⟩

theorem buildRows_ok_mem (ws : Worksheet) (mergedCells : List MergedCell)
    (pa pb pbg pf : Bool) (maxCol : Nat) :
    ∀ (rows : List Nat) (l : List RowData),
      buildRows ws mergedCells pa pb pbg pf maxCol rows = Except.ok l →
      ∀ rd ∈ l, rd.row_number ∈ rows ∧ rd.cells ≠ [] ∧
        processRow mergedCells pa pb pbg pf maxCol rd.row_number
          (getCollectionByRow ws rd.row_number) = Except.ok rd := by
  intro rows
  induction rows with
  | nil =>
    intro l h rd hrd
    cases h
    cases hrd
  | cons rowNum rest ih =>
    intro l h rd hrd
    simp only [buildRows] at h
    split at h
    · cases h
    · rename_i rowData hrow
      split at h
      · cases h
      · rename_i tl htl
        cases h
        by_cases hemp : rowData.cells.isEmpty
        · rw [if_pos hemp] at hrd
          have := ih tl htl rd hrd
          exact ⟨List.mem_cons_of_mem _ this.1, this.2⟩
        · rw [if_neg hemp] at hrd
          rcases List.mem_cons.mp hrd with rfl | hmem
          · have hnum := (processRow_ok_mem mergedCells pa pb pbg pf maxCol
              rowNum (getCollectionByRow ws rowNum) rd hrow).1
            refine ⟨hnum ▸ List.mem_cons_self _ _, ?_, ?_⟩
            · simpa [List.isEmpty_iff] using hemp
            · rw [hnum]; exact hrow
          · have := ih tl htl rd hmem
            exact ⟨List.mem_cons_of_mem _ this.1, this.2⟩

theorem buildRows_error (ws : Worksheet) (mergedCells : List MergedCell)
    (pa pb pbg pf : Bool) (maxCol : Nat) :
    ∀ (rows : List Nat) (e : String),
      buildRows ws mergedCells pa pb pbg pf maxCol rows = Except.error e →
      ∃ rowNum ∈ rows,
        processRow mergedCells pa pb pbg pf maxCol rowNum
          (getCollectionByRow ws rowNum) = Except.error e := by
  intro rows
  induction rows with
  | nil => intro e h; cases h
  | cons rowNum rest ih =>
    intro e h
    simp only [buildRows] at h
    rcases hrow : processRow mergedCells pa pb pbg pf maxCol rowNum
        (getCollectionByRow ws rowNum) with e2 | rowData
    · simp only [hrow] at h
      have hee : e2 = e := by injection h
      exact ⟨rowNum, List.mem_cons_self _ _, hee ▸ hrow⟩
    · simp only [hrow] at h
      rcases hrest : buildRows ws mergedCells pa pb pbg pf maxCol rest
          with e2 | tl
      · simp only [hrest] at h
        have hee : e2 = e := by injection h
        have ⟨r, hr, hpr⟩ := ih e2 hrest
        exact ⟨r, List.mem_cons_of_mem _ hr, hee ▸ hpr⟩
      · simp only [hrest] at h
        split at h <;> cases h

theorem buildRows_ok_of (ws : Worksheet) (mergedCells : List MergedCell)
    (pa pb pbg pf : Bool) (maxCol : Nat) :
    ∀ rows : List Nat,
      (∀ rowNum ∈ rows, ∃ rd,
        processRow mergedCells pa pb pbg pf maxCol rowNum
          (getCollectionByRow ws rowNum) = Except.ok rd) →
      ∃ l, buildRows ws mergedCells pa pb pbg pf maxCol rows =
        Except.ok l := by
  intro rows
  induction rows with
  | nil => intro _; exact ⟨[], rfl⟩
  | cons rowNum rest ih =>
    intro hrows
    have ⟨rd, hrd⟩ := hrows rowNum (List.mem_cons_self _ _)
    have ⟨l, hl⟩ := ih (fun x hx => hrows x (List.mem_cons_of_mem _ hx))
    simp only [buildRows]
    rw [hrd, hl]
    exact ⟨_, rfl⟩

theorem buildRows_ok_forall (ws : Worksheet) (mergedCells : List MergedCell)
    (pa pb pbg pf : Bool) (maxCol : Nat) :
    ∀ (rows : List Nat) (l : List RowData),
      buildRows ws mergedCells pa pb pbg pf maxCol rows = Except.ok l →
      ∀ rowNum ∈ rows, ∃ rd,
        processRow mergedCells pa pb pbg pf maxCol rowNum
          (getCollectionByRow ws rowNum) = Except.ok rd := by
  intro rows
  induction rows with
  | nil => intro l _ rowNum hr; cases hr
  | cons rowNum0 rest ih =>
    intro l h rowNum hr
    simp only [buildRows] at h
    split at h
    · cases h
    · rename_i rowData hrow
      split at h
      · cases h
      · rename_i tl htl
        rcases List.mem_cons.mp hr with rfl | hmem
        · exact ⟨rowData, hrow⟩
        · exact ih tl htl rowNum hmem

/-! ### The dimension scan -/

theorem dims_fold (l : List Cell)
    (hwf : ∀ c ∈ l, c.col < 4294967296 ∧ c.row < 4294967296) :
    ∀ acc : Nat × Nat,
      l.foldl (fun (acc : Nat × Nat) cell =>
        let p := parse_cell_reference cell.coordinateString
        (max acc.1 p.1, max acc.2 p.2)) acc =
      (l.foldl (fun m c => max m c.col) acc.1,
       l.foldl (fun m c => max m c.row) acc.2) := by
  induction l with
  | nil => intro acc; rfl
  | cons c cs ih =>
    intro acc
    have hc := hwf c (List.mem_cons_self c cs)
    simp only [List.foldl_cons]
    rw [show (let p := parse_cell_reference c.coordinateString
        (max acc.1 p.1, max acc.2 p.2)) = (max acc.1 c.col, max acc.2 c.row) by
      rw [show parse_cell_reference c.coordinateString = (c.col, c.row) from
        parse_coordinateString c hc.1 hc.2]]
    exact ih (fun x hx => hwf x (List.mem_cons_of_mem c hx)) _

theorem foldl_max_init_le (l : List Nat) : ∀ a : Nat, a ≤ l.foldl max a := by
  induction l with
  | nil => intro a; exact Nat.le_refl a
  | cons x xs ih =>
    intro a
    exact Nat.le_trans (Nat.le_max_left a x) (ih (max a x))

theorem mem_le_foldl_max (l : List Nat) (x : Nat) (hx : x ∈ l) :
    ∀ a : Nat, x ≤ l.foldl max a := by
  induction l with
  | nil => cases hx
  | cons y ys ih =>
    intro a
    rcases List.mem_cons.mp hx with rfl | hmem
    · exact Nat.le_trans (Nat.le_max_right a x) (foldl_max_init_le ys (max a x))
    · exact ih hmem (max a y)

theorem foldl_max_cases (l : List Nat) :
    ∀ a : Nat, l.foldl max a = a ∨ l.foldl max a ∈ l := by
  induction l with
  | nil => intro a; exact Or.inl rfl
  | cons x xs ih =>
    intro a
    rcases ih (max a x) with h | h
    · rw [List.foldl_cons, h]
      rcases Nat.le_total a x with hax | hax
      · exact Or.inr (by rw [Nat.max_eq_right hax]; exact List.mem_cons_self x xs)
      · exact Or.inl (Nat.max_eq_left hax)
    · exact Or.inr (List.mem_cons_of_mem x (by rw [List.foldl_cons]; exact h))

theorem trueMaxCol_le (ws : Worksheet) (c : Cell) (hc : c ∈ ws.cells) :
    c.col ≤ trueMaxCol ws := by
  unfold trueMaxCol
  rw [← List.foldl_map Cell.col max ws.cells 0]
  exact mem_le_foldl_max _ c.col (List.mem_map_of_mem Cell.col hc) 0

theorem trueMaxRow_le (ws : Worksheet) (c : Cell) (hc : c ∈ ws.cells) :
    c.row ≤ trueMaxRow ws := by
  unfold trueMaxRow
  rw [← List.foldl_map Cell.row max ws.cells 0]
  exact mem_le_foldl_max _ c.row (List.mem_map_of_mem Cell.row hc) 0

theorem trueMaxCol_mem (ws : Worksheet) (hne : ws.cells ≠ []) :
    ∃ c ∈ ws.cells, c.col = trueMaxCol ws := by
  unfold trueMaxCol
  rw [← List.foldl_map Cell.col max ws.cells 0]
  rcases foldl_max_cases (ws.cells.map Cell.col) 0 with h | h
  · have ⟨c, hc⟩ := List.exists_mem_of_ne_nil ws.cells hne
    have hle := mem_le_foldl_max (ws.cells.map Cell.col) c.col
      (List.mem_map_of_mem Cell.col hc) 0
    exact ⟨c, hc, by omega⟩
  · rcases List.mem_map.mp h with ⟨c, hc, hcc⟩
    exact ⟨c, hc, hcc⟩

theorem trueMaxRow_mem (ws : Worksheet) (hne : ws.cells ≠ []) :
    ∃ c ∈ ws.cells, c.row = trueMaxRow ws := by
  unfold trueMaxRow
  rw [← List.foldl_map Cell.row max ws.cells 0]
  rcases foldl_max_cases (ws.cells.map Cell.row) 0 with h | h
  · have ⟨c, hc⟩ := List.exists_mem_of_ne_nil ws.cells hne
    have hle := mem_le_foldl_max (ws.cells.map Cell.row) c.row
      (List.mem_map_of_mem Cell.row hc) 0
    exact ⟨c, hc, by omega⟩
  · rcases List.mem_map.mp h with ⟨c, hc, hcc⟩
    exact ⟨c, hc, hcc⟩

theorem get_table_dimensions_eq (ws : Worksheet)
    (hwf : ∀ c ∈ ws.cells, c.col < 4294967296 ∧ c.row < 4294967296) :
    get_table_dimensions ws =
      (if trueMaxCol ws = 0 ∨ trueMaxRow ws = 0 then
        Except.error "No data found in the worksheet"
      else Except.ok (trueMaxCol ws, trueMaxRow ws)) := by
  unfold get_table_dimensions
  rw [dims_fold ws.cells hwf (0, 0)]
  rfl

theorem trueMax_zero_iff (ws : Worksheet)
    (hwf : ∀ c ∈ ws.cells, 1 ≤ c.col ∧ 1 ≤ c.row) :
    (trueMaxCol ws = 0 ∨ trueMaxRow ws = 0) ↔ ws.cells = [] := by
  constructor
  · intro h
    by_contra hne
    have ⟨c, hc, hcc⟩ := trueMaxCol_mem ws hne
    have ⟨c2, hc2, hcc2⟩ := trueMaxRow_mem ws hne
    have h1 := (hwf c hc).1
    have h2 := (hwf c2 hc2).2
    omega
  · intro h
    unfold trueMaxCol
    rw [h]
    exact Or.inl rfl

/-! ### Worksheet well-formedness consequences -/

theorem wf_parse (ws : Worksheet)
    (hwf : ∀ c ∈ ws.cells,
      1 ≤ c.col ∧ 1 ≤ c.row ∧ c.col < 4294967296 ∧ c.row < 4294967296)
    (c : Cell) (hc : c ∈ ws.cells) :
    parse_cell_reference c.coordinateString = (c.col, c.row) :=
  parse_coordinateString c (hwf c hc).2.2.1 (hwf c hc).2.2.2

theorem mem_getCollectionByRow (ws : Worksheet) (rowNum : Nat) (c : Cell) :
    c ∈ getCollectionByRow ws rowNum ↔ c ∈ ws.cells ∧ c.row = rowNum := by
  unfold getCollectionByRow
  rw [List.mem_filter]
  simp

theorem wf_filter_pairwise (ws : Worksheet) (hwf : WorksheetWF ws)
    (rowNum : Nat) :
    (getCollectionByRow ws rowNum).Pairwise (fun a b =>
      (parse_cell_reference a.coordinateString).1 - 1 ≠
      (parse_cell_reference b.coordinateString).1 - 1) := by
  have hp : (getCollectionByRow ws rowNum).Pairwise
      (fun a b => (a.col, a.row) ≠ (b.col, b.row)) :=
    List.Pairwise.filter _ hwf.2
  refine hp.imp_of_mem ?_
  intro a b ha hb hne
  have ha2 := (mem_getCollectionByRow ws rowNum a).mp ha
  have hb2 := (mem_getCollectionByRow ws rowNum b).mp hb
  have hpa := wf_parse ws hwf.1 a ha2.1
  have hpb := wf_parse ws hwf.1 b hb2.1
  rw [hpa, hpb]
  have h1 := (hwf.1 a ha2.1).1
  have h2 := (hwf.1 b hb2.1).1
  have hcol : a.col ≠ b.col := by
    intro he
    exact hne (by rw [he, ha2.2, hb2.2])
  simpa using by omega

/-! ### The size resolver -/

theorem setSlots_length {α : Type} (ps : List (Nat × α)) :
    ∀ arr : List α,
      (ps.foldl (fun arr p =>
        if p.1 - 1 < arr.length then arr.set (p.1 - 1) p.2 else arr)
        arr).length = arr.length := by
  induction ps with
  | nil => intro arr; rfl
  | cons p ps ih =>
    intro arr
    rw [List.foldl_cons, ih]
    by_cases hb : p.1 - 1 < arr.length
    · rw [if_pos hb, List.length_set]
    · rw [if_neg hb]

theorem setSlots_untouched {α : Type} (ps : List (Nat × α)) :
    ∀ (arr : List α) (k : Nat), (∀ p ∈ ps, p.1 - 1 ≠ k) →
      (ps.foldl (fun arr p =>
        if p.1 - 1 < arr.length then arr.set (p.1 - 1) p.2 else arr)
        arr)[k]? = arr[k]? := by
  induction ps with
  | nil => intro arr k _; rfl
  | cons p ps ih =>
    intro arr k hne
    rw [List.foldl_cons, ih _ k (fun x hx => hne x (List.mem_cons_of_mem p hx))]
    by_cases hb : p.1 - 1 < arr.length
    · rw [if_pos hb, List.getElem?_set_ne (hne p (List.mem_cons_self p ps))]
    · rw [if_neg hb]

theorem setSlots_named {α : Type} (ps : List (Nat × α)) :
    ∀ arr : List α, (∀ p ∈ ps, 1 ≤ p.1) →
      ps.Pairwise (fun a b => a.1 ≠ b.1) →
      ∀ p ∈ ps, p.1 - 1 < arr.length →
        (ps.foldl (fun arr p =>
          if p.1 - 1 < arr.length then arr.set (p.1 - 1) p.2 else arr)
          arr)[p.1 - 1]? = Option.some p.2 := by
  induction ps with
  | nil => intro arr _ _ p hp; cases hp
  | cons p0 ps ih =>
    intro arr hpos hdist p hp hlen
    rw [List.foldl_cons]
    rcases List.mem_cons.mp hp with rfl | hmem
    · rw [if_pos hlen]
      rw [setSlots_untouched ps _ _ (fun x hx => by
        have h1 := hpos p (List.mem_cons_self p ps)
        have h2 := hpos x (List.mem_cons_of_mem p hx)
        have h3 := (List.pairwise_cons.mp hdist).1 x hx
        omega)]
      rw [List.getElem?_set_self hlen]
    · have harr : (if p0.1 - 1 < arr.length then arr.set (p0.1 - 1) p0.2
          else arr).length = arr.length := by
        by_cases hb : p0.1 - 1 < arr.length
        · rw [if_pos hb, List.length_set]
        · rw [if_neg hb]
      exact ih _ (fun x hx => hpos x (List.mem_cons_of_mem p0 hx))
        (List.pairwise_cons.mp hdist).2 p hmem (by rw [harr]; exact hlen)

theorem get_column_widths_eq (ws : Worksheet) (maxCol : Nat) (d : Rat) :
    get_column_widths ws maxCol d =
      (ws.columnDimensions.map (fun cd => (cd.colNum, cd.width))).foldl
        (fun arr p =>
          if p.1 - 1 < arr.length then arr.set (p.1 - 1) p.2 else arr)
        (List.replicate maxCol d) := by
  unfold get_column_widths
  rw [List.foldl_map]

theorem get_row_heights_eq (ws : Worksheet) (maxRow : Nat) (d : Rat) :
    get_row_heights ws maxRow d =
      (ws.rowDimensions.map (fun rd => (rd.rowNum, rd.height))).foldl
        (fun arr p =>
          if p.1 - 1 < arr.length then arr.set (p.1 - 1) p.2 else arr)
        (List.replicate maxRow d) := by
  unfold get_row_heights
  rw [List.foldl_map]

/-! ### The split helper of `parse_merge_range` -/

theorem splitChar_ne_nil (sep : Char) : ∀ cs, splitChar sep cs ≠ [] := by
  intro cs
  induction cs with
  | nil => simp [splitChar]
  | cons c cs ih =>
    unfold splitChar
    by_cases hc : c = sep
    · rw [if_pos hc]; simp
    · rw [if_neg hc]
      match hx : splitChar sep cs, ih with
      | f :: rest, _ => simp

theorem splitChar_head (sep : Char) :
    ∀ cs, (splitChar sep cs).head? =
      Option.some (cs.takeWhile (fun c => decide (c ≠ sep))) := by
  intro cs
  induction cs with
  | nil => rfl
  | cons c cs ih =>
    unfold splitChar
    by_cases hc : c = sep
    · rw [if_pos hc, List.takeWhile_cons]
      simp [hc]
    · rw [if_neg hc, List.takeWhile_cons]
      match hx : splitChar sep cs, ih with
      | f :: rest, ihx =>
        have hf : f = cs.takeWhile (fun c => decide (c ≠ sep)) := by
          simpa using ihx
        simp [hc, hf]

theorem splitChar_not_mem (sep : Char) :
    ∀ cs, sep ∉ cs → splitChar sep cs = [cs] := by
  intro cs
  induction cs with
  | nil => intro _; rfl
  | cons c cs ih =>
    intro hmem
    unfold splitChar
    rw [if_neg (fun he => hmem (by rw [← he]; exact List.mem_cons_self c cs)),
      ih (fun hm => hmem (List.mem_cons_of_mem c hm))]

theorem splitChar_mem (sep : Char) :
    ∀ cs, sep ∈ cs →
      splitChar sep cs =
        cs.takeWhile (fun c => decide (c ≠ sep)) ::
          splitChar sep ((cs.dropWhile (fun c => decide (c ≠ sep))).tail) := by
  intro cs
  induction cs with
  | nil => intro h; cases h
  | cons c cs ih =>
    intro hmem
    by_cases hc : c = sep
    · subst hc
      simp [splitChar]
    · have hmem2 : sep ∈ cs := by
        rcases List.mem_cons.mp hmem with he | h
        · exact absurd he.symm hc
        · exact h
      have hstep : splitChar sep (c :: cs) =
          match splitChar sep cs with
          | f :: rest => (c :: f) :: rest
          | [] => [[c]] := by
        simp [splitChar, hc]
      rw [hstep, ih hmem2]
      simp [hc, List.takeWhile_cons, List.dropWhile_cons]

/-! ### Shape lemmas for `to_typst` -/

theorem to_typst_eq (book : Spreadsheet) (sheetIndex : Nat)
    (pa pb pbg pf : Bool) (ws : Worksheet) (maxCol maxRow : Nat)
    (mcs : List MergedCell)
    (hws : book.sheets[sheetIndex]? = Option.some ws)
    (hdims : get_table_dimensions ws = Except.ok (maxCol, maxRow))
    (hmcs : buildMergedCells ws.mergeCellRanges = Option.some mcs) :
    to_typst book sheetIndex pa pb pbg pf =
      (match buildRows ws mcs pa pb pbg pf maxCol (List.range' 1 maxRow) with
       | Except.error e => Option.some (Except.error e)
       | Except.ok rows => Option.some (Except.ok
          { dimensions := {
              columns := get_column_widths ws maxCol
                ws.formatProperties.defaultColumnWidth
              rows := get_row_heights ws maxRow
                ws.formatProperties.defaultRowHeight
              maxColumns := Option.some maxCol
              maxRows := Option.some maxRow }
            rows := rows, merged_cells := mcs })) := by
  unfold to_typst
  simp only [hws, hdims, hmcs]

theorem to_typst_ok_inv (book : Spreadsheet) (sheetIndex : Nat)
    (pa pb pbg pf : Bool) (td : TableData)
    (h : to_typst book sheetIndex pa pb pbg pf = Option.some (Except.ok td)) :
    ∃ ws maxCol maxRow mcs rows,
      book.sheets[sheetIndex]? = Option.some ws ∧
      get_table_dimensions ws = Except.ok (maxCol, maxRow) ∧
      buildMergedCells ws.mergeCellRanges = Option.some mcs ∧
      buildRows ws mcs pa pb pbg pf maxCol (List.range' 1 maxRow) =
        Except.ok rows ∧
      td = { dimensions := {
              columns := get_column_widths ws maxCol
                ws.formatProperties.defaultColumnWidth
              rows := get_row_heights ws maxRow
                ws.formatProperties.defaultRowHeight
              maxColumns := Option.some maxCol
              maxRows := Option.some maxRow }
             rows := rows, merged_cells := mcs } := by
  unfold to_typst at h
  rcases hws : book.sheets[sheetIndex]? with _ | ws
  · simp only [hws] at h
    exact (Except.noConfusion (Option.some.inj h))
  · simp only [hws] at h
    rcases hdims : get_table_dimensions ws with e | ⟨maxCol, maxRow⟩
    · simp only [hdims] at h
      exact (Except.noConfusion (Option.some.inj h))
    · simp only [hdims] at h
      rcases hmcs : buildMergedCells ws.mergeCellRanges with _ | mcs
      · simp only [hmcs] at h
        exact Option.noConfusion h
      · simp only [hmcs] at h
        rcases hbr : buildRows ws mcs pa pb pbg pf maxCol
            (List.range' 1 maxRow) with e | rows
        · simp only [hbr] at h
          exact (Except.noConfusion (Option.some.inj h))
        · simp only [hbr] at h
          exact ⟨ws, maxCol, maxRow, mcs, rows, rfl, hdims, hmcs, hbr,
            (Except.ok.inj (Option.some.inj h)).symm⟩

/-! ## Claim theorems -/

/-- C6: the reference codec satisfies `column_to_number "A" = 1`,
`"Z" = 26`, `"AA" = 27` (bijective base-26 via a left-to-right fold
`acc * 26 + letter_value`), `parse_cell_reference "B12" = (2, 12)` with
the row component defaulting to 0 when the numeric run is empty or does
not parse as a `u32`, and `parse_merge_range "A1:C2" = ("A1", "C2")`. -/
theorem reference_codec_spec :
    column_to_number "A" = 1 ∧ column_to_number "Z" = 26 ∧
    column_to_number "AA" = 27 ∧
    parse_cell_reference "B12" = (2, 12) ∧
    parse_merge_range "A1:C2" = Option.some ("A1", "C2") ∧
    (∀ s : String, s.toList.dropWhile Char.isAlpha = [] →
      (parse_cell_reference s).2 = 0) ∧
    (∀ s : String,
      parseU32 (String.mk (s.toList.dropWhile Char.isAlpha)) = Option.none →
      (parse_cell_reference s).2 = 0) := by
  refine ⟨by decide, by decide, by decide, by decide, by decide, ?_, ?_⟩
  · intro s h
    simp only [parse_cell_reference, h]
    rfl
  · intro s h
    simp only [parse_cell_reference, h]
    rfl

/-- C6 witness: the defaulting clause at the concrete input "AB"
(empty numeric run). -/
theorem reference_codec_spec_witness :
    (parse_cell_reference "AB").2 = 0 :=
  reference_codec_spec.2.2.2.2.2.1 "AB" (by decide)

/-- C8: the embedded conversion is a pure function — identical decoded
inputs give identical output — and the registered entropy source
`always_fail` deterministically returns the fixed custom error without
touching its buffer. -/
theorem determinism_spec (book book2 : Spreadsheet)
    (sheetIndex sheetIndex2 : Nat) (pa pa2 pb pb2 pbg pbg2 pf pf2 : Bool)
    (h : book = book2 ∧ sheetIndex = sheetIndex2 ∧ pa = pa2 ∧ pb = pb2 ∧
      pbg = pbg2 ∧ pf = pf2) :
    to_typst book sheetIndex pa pb pbg pf =
      to_typst book2 sheetIndex2 pa2 pb2 pbg2 pf2 ∧
    (∀ buf : List Nat,
      always_fail buf = (Except.error MY_CUSTOM_ERROR_CODE, buf)) ∧
    (∀ buf buf2 : List Nat, (always_fail buf).1 = (always_fail buf2).1) := by
  obtain ⟨rfl, rfl, rfl, rfl, rfl, rfl⟩ := h
  exact ⟨rfl, fun _ => rfl, fun _ _ => rfl⟩

/-- C8 witness: determinism at a concrete workbook. -/
theorem determinism_spec_witness :
    to_typst exBookMergeErr 0 false false false false =
      to_typst exBookMergeErr 0 false false false false ∧
    (∀ buf : List Nat,
      always_fail buf = (Except.error MY_CUSTOM_ERROR_CODE, buf)) ∧
    (∀ buf buf2 : List Nat, (always_fail buf).1 = (always_fail buf2).1) :=
  determinism_spec exBookMergeErr exBookMergeErr 0 0 false false false false
    false false false false ⟨rfl, rfl, rfl, rfl, rfl, rfl⟩

/-- C10 counterexample: on "A1:C2:D3" (two colons) the function
returns the second colon-separated field "C2", not the substring
"C2:D3" after the first colon, so the claim's description of the
returned pair is false at this input. -/
theorem parse_merge_range_counterexample :
    parse_merge_range "A1:C2:D3" = Option.some ("A1", "C2") ∧
    parse_merge_range "A1:C2:D3" ≠ Option.some ("A1", "C2:D3") := by
  exact ⟨by decide, by decide⟩

/-- C10 (amended): on input containing a colon, `parse_merge_range`
returns the first two colon-separated fields (the part before the
first colon and the part between the first and second colon); on input
without a colon it panics (`Option.none` in the embedding) via the
out-of-bounds `parts[1]`. -/
theorem parse_merge_range_spec (s : String) :
    (':' ∉ s.toList → parse_merge_range s = Option.none) ∧
    (':' ∈ s.toList →
      parse_merge_range s = Option.some
        (String.mk (s.toList.takeWhile (fun c => decide (c ≠ ':'))),
         String.mk
           (((s.toList.dropWhile (fun c => decide (c ≠ ':'))).tail).takeWhile
             (fun c => decide (c ≠ ':'))))) := by
  constructor
  · intro h
    unfold parse_merge_range
    rw [splitChar_not_mem ':' s.toList h]
    rfl
  · intro h
    unfold parse_merge_range
    rw [splitChar_mem ':' s.toList h]
    rcases hx : splitChar ':'
        ((s.toList.dropWhile (fun c => decide (c ≠ ':'))).tail)
      with _ | ⟨f, rest⟩
    · exact absurd hx (splitChar_ne_nil ':' _)
    · have hf := splitChar_head ':'
        ((s.toList.dropWhile (fun c => decide (c ≠ ':'))).tail)
      rw [hx] at hf
      have hfe : f =
          ((s.toList.dropWhile (fun c => decide (c ≠ ':'))).tail).takeWhile
            (fun c => decide (c ≠ ':')) := by
        simpa using hf
      rw [hfe]
      rfl

/-- C10 witness: the amended description evaluated at "A1:C2". -/
theorem parse_merge_range_spec_witness :
    parse_merge_range "A1:C2" = Option.some
      (String.mk (("A1:C2" : String).toList.takeWhile
        (fun c => decide (c ≠ ':'))),
       String.mk (((("A1:C2" : String).toList.dropWhile
        (fun c => decide (c ≠ ':'))).tail).takeWhile
        (fun c => decide (c ≠ ':')))) :=
  (parse_merge_range_spec "A1:C2").2 (by decide)

/-- C2 counterexample: a style whose background color resolves to the
empty string yields a present `Some("")` (not an absent field, not six
hex digits), and an uppercase ARGB resolution passes through uppercase
("FFFF0000" becomes "FF0000", which contains no lowercase hex digit). -/
theorem color_six_hex_counterexample :
    get_cell_bg_color exCellEmptyBg = Option.some "" ∧
    ("" : String).toList.length = 0 ∧
    get_cell_bg_color exCellUpperBg = Option.some "FF0000" ∧
    'F' ∈ ("FF0000" : String).toList ∧ isLowerHexDigit 'F' = false := by
  exact ⟨by decide, by decide, by decide, by decide, by decide⟩

/-- C2 (amended): a present color string is exactly the theme-resolved
string with its first two characters removed when its length is 8, and
the resolved string verbatim otherwise; no case or length normalization
happens, so the result is six lowercase hex digits only when the
resolution was an 8-char lowercase-hex string.  The fill field is
absent iff the style has no background color (a set color resolving to
empty yields a present empty string); the font color is absent iff the
font is absent or its color resolves to empty. -/
theorem color_resolution_spec (cell : Cell) :
    (get_cell_bg_color cell = Option.none ↔
      cell.style.backgroundColor = Option.none) ∧
    (∀ col, cell.style.backgroundColor = Option.some col →
      get_cell_bg_color cell = Option.some (stripAlpha col.argbWithTheme)) ∧
    ((get_cell_font_style cell).bind FontStyle.color =
      (match cell.style.font with
       | Option.none => Option.none
       | Option.some f =>
         if f.color.argbWithTheme = "" then Option.none
         else Option.some (stripAlpha f.color.argbWithTheme))) ∧
    (∀ a : String, (stripAlpha a).toList.length =
      if a.toList.length = 8 then 6 else a.toList.length) ∧
    (∀ a : String, a.toList.length = 8 →
      (∀ c ∈ a.toList, isLowerHexDigit c = true) →
      (stripAlpha a).toList.length = 6 ∧
      ∀ c ∈ (stripAlpha a).toList, isLowerHexDigit c = true) := by
  have hstrip : ∀ a : String, (stripAlpha a).toList.length =
      if a.toList.length = 8 then 6 else a.toList.length := by
    intro a
    unfold stripAlpha
    by_cases hl : a.toList.length = 8
    · rw [if_pos hl, if_pos hl]
      show (a.toList.drop 2).length = 6
      rw [List.length_drop, hl]
    · rw [if_neg hl, if_neg hl]
  refine ⟨?_, ?_, ?_, hstrip, ?_⟩
  · unfold get_cell_bg_color
    rcases hbg : cell.style.backgroundColor with _ | col
    · simp
    · by_cases he : col.argbWithTheme = "" <;> simp [he]
  · intro col hcol
    unfold get_cell_bg_color
    simp only [hcol]
    by_cases he : col.argbWithTheme = ""
    · rw [if_pos he, he]
      rfl
    · rw [if_neg he]
  · unfold get_cell_font_style
    rcases hf : cell.style.font with _ | f
    · rfl
    · by_cases he : f.color.argbWithTheme = "" <;> simp [he]
  · intro a hl hhex
    refine ⟨by rw [hstrip a, if_pos hl], ?_⟩
    intro c hc
    unfold stripAlpha at hc
    rw [if_pos hl] at hc
    exact hhex c (List.mem_of_mem_drop hc)

/-- C2 witness: the amended alpha-stripping rule at a concrete cell. -/
theorem color_resolution_spec_witness :
    get_cell_bg_color exCellUpperBg =
      Option.some (stripAlpha "FFFF0000") :=
  (color_resolution_spec exCellUpperBg).2.1 { argbWithTheme := "FFFF0000" } rfl

/-- C1 counterexample: in a workbook whose only cell carries border
styling, calling the pipeline with the border toggle enabled but the
alignment and font toggles disabled emits the cell with `style = None`:
the enabled border toggle alone does not make the border sub-resolution
reach the output, refuting the claimed independence. -/
theorem style_toggles_counterexample :
    to_typst exBookBorder 0 false true false false =
      Option.some (Except.ok
        { dimensions := { columns := [10], rows := [20],
                          maxColumns := Option.some 1, maxRows := Option.some 1 }
          rows := [{ row_number := 1,
                     cells := [{ value := "v", column := 1,
                                 style := Option.none }] }]
          merged_cells := [] }) ∧
    get_cell_border exCellBorder =
      Option.some { left := true, right := true, top := true, bottom := true } := by
  exact ⟨by decide, by decide⟩

/-- C1 (amended): the alignment sub-resolution is computed iff its
toggle is on, and the font sub-resolution iff its toggle is on; but the
border and fill sub-resolutions are computed iff their own toggle AND
at least one of the alignment/font toggles is on, because the whole
style record is gated on `parse_alignment || parse_font_style`; a
disabled toggle always yields an absent field with no resolution
performed. -/
theorem style_toggles_spec (pa pb pbg pf : Bool) (cell : Cell) :
    ((mkCellStyle pa pb pbg pf cell).bind CellStyle.alignment =
      if pa then get_cell_alignment cell else Option.none) ∧
    ((mkCellStyle pa pb pbg pf cell).bind CellStyle.border =
      if pb && (pa || pf) then get_cell_border cell else Option.none) ∧
    ((mkCellStyle pa pb pbg pf cell).bind CellStyle.color =
      if pbg && (pa || pf) then get_cell_bg_color cell else Option.none) ∧
    ((mkCellStyle pa pb pbg pf cell).bind CellStyle.font =
      if pf then get_cell_font_style cell else Option.none) ∧
    (mkCellStyle pa pb pbg pf cell = Option.none ↔ (pa || pf) = false) := by
  cases pa <;> cases pb <;> cases pbg <;> cases pf <;>
    simp [mkCellStyle, Option.bind]

/-- C3: any coordinate `(c, r)` lying inside the inclusive bounds of a
recorded merge rectangle and different from its start never appears as
a cell entry: no cell with column `c` occurs in the output row whose
`row_number` is `r` (proved for all such coordinates, in particular
those within the table bounds). -/
theorem merge_suppressed_spec (book : Spreadsheet) (sheetIndex : Nat)
    (pa pb pbg pf : Bool) (td : TableData)
    (h : to_typst book sheetIndex pa pb pbg pf = Option.some (Except.ok td))
    (c r : Nat) (mc : MergedCell) (hmc : mc ∈ td.merged_cells)
    (hr1 : mc.start.row ≤ r) (hr2 : r ≤ mc.stop.row)
    (hc1 : mc.start.column ≤ c) (hc2 : c ≤ mc.stop.column)
    (hne : ¬(r = mc.start.row ∧ c = mc.start.column)) :
    ∀ rd ∈ td.rows, rd.row_number = r → ∀ cd ∈ rd.cells, cd.column ≠ c := by
  intro rd hrd hnum cd hcd hcol
  have ⟨ws, maxCol, maxRow, mcs, rows, hws, hdims, hmcs, hbr, htd⟩ :=
    to_typst_ok_inv book sheetIndex pa pb pbg pf td h
  have hrd2 : rd ∈ rows := by
    rw [htd] at hrd
    exact hrd
  have hmc2 : mc ∈ mcs := by
    rw [htd] at hmc
    exact hmc
  have ⟨_, _, hpr⟩ := buildRows_ok_mem ws mcs pa pb pbg pf maxCol
    (List.range' 1 maxRow) rows hbr rd hrd2
  have hprops := (processRow_ok_mem mcs pa pb pbg pf maxCol rd.row_number
    (getCollectionByRow ws rd.row_number) rd hpr).2 cd hcd
  have hfalse : isMergedAt mcs rd.row_number cd.column = false := hprops.2.1
  have htrue : isMergedAt mcs rd.row_number cd.column = true := by
    unfold isMergedAt
    rw [List.any_eq_true]
    refine ⟨mc, hmc2, ?_⟩
    rw [decide_eq_true_iff]
    rw [hnum, hcol]
    exact ⟨hr1, hr2, hc1, hc2, hne⟩
  rw [hfalse] at htrue
  cases htrue

/-- C3 witness: in the merged workbook, the only entry of output row 1
has column 1, not the suppressed column 2. -/
theorem merge_suppressed_spec_witness :
    ({ value := "T", column := 1, style := Option.none } : CellData).column ≠ 2 :=
  merge_suppressed_spec exBookMergeErr 0 false false false false
    { dimensions := { columns := [10, 10], rows := [20],
                      maxColumns := Option.some 2, maxRows := Option.some 1 }
      rows := [{ row_number := 1,
                 cells := [{ value := "T", column := 1, style := Option.none }] }]
      merged_cells := [{ range := "A1:B1", start := { row := 1, column := 1 },
                         stop := { row := 1, column := 2 } }] }
    (by decide) 2 1
    { range := "A1:B1", start := { row := 1, column := 1 },
      stop := { row := 1, column := 2 } }
    (by decide) (by decide) (by decide) (by decide) (by decide) (by decide)
    { row_number := 1,
      cells := [{ value := "T", column := 1, style := Option.none }] }
    (by decide) (by decide)
    { value := "T", column := 1, style := Option.none } (by decide)

/-- C9: a formula-error cell at a merge-suppressed coordinate never
reaches `cell_value`: if every error-flagged cell of the (nonempty,
well-formed) worksheet is merge-suppressed, the conversion succeeds,
and every emitted cell sits at an unsuppressed coordinate. -/
theorem suppressed_error_cells_spec (book : Spreadsheet) (sheetIndex : Nat)
    (pa pb pbg pf : Bool) (ws : Worksheet) (mcs : List MergedCell)
    (hws : book.sheets[sheetIndex]? = Option.some ws)
    (hwf : ∀ c ∈ ws.cells,
      1 ≤ c.col ∧ 1 ≤ c.row ∧ c.col < 4294967296 ∧ c.row < 4294967296)
    (hne : ws.cells ≠ [])
    (hmcs : buildMergedCells ws.mergeCellRanges = Option.some mcs)
    (hsup : ∀ c ∈ ws.cells, c.rawIsError = true →
      isMergedAt mcs c.row c.col = true) :
    ∃ td, to_typst book sheetIndex pa pb pbg pf =
        Option.some (Except.ok td) ∧
      ∀ rd ∈ td.rows, ∀ cd ∈ rd.cells,
        isMergedAt mcs rd.row_number cd.column = false := by
  have hdims : get_table_dimensions ws =
      Except.ok (trueMaxCol ws, trueMaxRow ws) := by
    rw [get_table_dimensions_eq ws (fun c hc => (hwf c hc).2.2)]
    rw [if_neg (fun hz => hne ((trueMax_zero_iff ws
      (fun c hc => ⟨(hwf c hc).1, (hwf c hc).2.1⟩)).mp hz))]
  have hrows : ∀ rowNum ∈ List.range' 1 (trueMaxRow ws), ∃ rd,
      processRow mcs pa pb pbg pf (trueMaxCol ws) rowNum
        (getCollectionByRow ws rowNum) = Except.ok rd := by
    intro rowNum _
    have ⟨cells, hcells⟩ := processCols_ok_of mcs pa pb pbg pf rowNum
      (buildColCellMap (trueMaxCol ws) (getCollectionByRow ws rowNum))
      (List.range' 1 (trueMaxCol ws)) ?_
    · refine ⟨{ row_number := rowNum, cells := cells }, ?_⟩
      unfold processRow
      rw [hcells]
    · intro colNum hcol hm cell hmap
      have ⟨hmem, hslot⟩ := buildColCellMap_mem (trueMaxCol ws)
        (getCollectionByRow ws rowNum) (colNum - 1) cell hmap
      have ⟨hmemw, hrow⟩ := (mem_getCollectionByRow ws rowNum cell).mp hmem
      have hpc := wf_parse ws hwf cell hmemw
      rw [hpc] at hslot
      have hcol1 : 1 ≤ colNum := by
        rcases List.mem_range'.mp hcol with ⟨i, _, hi⟩
        omega
      have hcc : colNum = cell.col := by
        have := (hwf cell hmemw).1
        omega
      by_contra herr
      have htrue := hsup cell hmemw (Bool.of_not_eq_false herr)
      rw [hrow, ← hcc] at htrue
      rw [hm] at htrue
      cases htrue
  have ⟨l, hl⟩ := buildRows_ok_of ws mcs pa pb pbg pf (trueMaxCol ws)
    (List.range' 1 (trueMaxRow ws)) hrows
  rw [to_typst_eq book sheetIndex pa pb pbg pf ws (trueMaxCol ws)
    (trueMaxRow ws) mcs hws hdims hmcs]
  simp only [hl]
  refine ⟨_, rfl, ?_⟩
  intro rd hrd cd hcd
  have ⟨_, _, hpr⟩ := buildRows_ok_mem ws mcs pa pb pbg pf (trueMaxCol ws)
    (List.range' 1 (trueMaxRow ws)) l hl rd hrd
  exact ((processRow_ok_mem mcs pa pb pbg pf (trueMaxCol ws) rd.row_number
    (getCollectionByRow ws rd.row_number) rd hpr).2 cd hcd).2.1

theorem processRow_error_inv (mergedCells : List MergedCell)
    (pa pb pbg pf : Bool) (maxCol rowNum : Nat) (rowCells : List Cell)
    (e : String)
    (h : processRow mergedCells pa pb pbg pf maxCol rowNum rowCells =
      Except.error e) :
    processCols mergedCells pa pb pbg pf rowNum
      (buildColCellMap maxCol rowCells) (List.range' 1 maxCol) =
      Except.error e := by
  unfold processRow at h
  rcases hpc : processCols mergedCells pa pb pbg pf rowNum
      (buildColCellMap maxCol rowCells) (List.range' 1 maxCol) with e2 | cells
  · simp only [hpc] at h
    have he : e2 = e := by injection h
    rw [← he]
  · simp only [hpc] at h
    cases h

/-- C5: the dimension scan returns exactly the true maximum column and
row of the worksheet's cell set; it fails with the empty-worksheet
error exactly when either maximum remains zero, i.e. exactly when
there are no cells; that failure aborts the whole conversion; and once
the worksheet is nonempty the only other error the per-worksheet
pipeline can produce is a cell-value error naming a cell address. -/
theorem dimension_scanner_spec (ws : Worksheet)
    (hwf : ∀ c ∈ ws.cells,
      1 ≤ c.col ∧ 1 ≤ c.row ∧ c.col < 4294967296 ∧ c.row < 4294967296) :
    ((trueMaxCol ws = 0 ∨ trueMaxRow ws = 0) ↔ ws.cells = []) ∧
    (ws.cells = [] →
      get_table_dimensions ws = Except.error "No data found in the worksheet") ∧
    (ws.cells ≠ [] →
      get_table_dimensions ws = Except.ok (trueMaxCol ws, trueMaxRow ws) ∧
      (∀ c ∈ ws.cells, c.col ≤ trueMaxCol ws ∧ c.row ≤ trueMaxRow ws) ∧
      (∃ c ∈ ws.cells, c.col = trueMaxCol ws) ∧
      (∃ c ∈ ws.cells, c.row = trueMaxRow ws)) ∧
    (∀ (book : Spreadsheet) (sheetIndex : Nat) (pa pb pbg pf : Bool),
      book.sheets[sheetIndex]? = Option.some ws → ws.cells = [] →
      to_typst book sheetIndex pa pb pbg pf =
        Option.some (Except.error "No data found in the worksheet")) ∧
    (∀ (book : Spreadsheet) (sheetIndex : Nat) (pa pb pbg pf : Bool)
      (mcs : List MergedCell),
      book.sheets[sheetIndex]? = Option.some ws → ws.cells ≠ [] →
      buildMergedCells ws.mergeCellRanges = Option.some mcs →
      (∃ td, to_typst book sheetIndex pa pb pbg pf =
        Option.some (Except.ok td)) ∨
      (∃ c ∈ ws.cells, to_typst book sheetIndex pa pb pbg pf =
        Option.some (Except.error ("Error in cell " ++ c.coordinateString)))) := by
  have hzero := trueMax_zero_iff ws (fun c hc => ⟨(hwf c hc).1, (hwf c hc).2.1⟩)
  have heq := get_table_dimensions_eq ws (fun c hc => (hwf c hc).2.2)
  refine ⟨hzero, ?_, ?_, ?_, ?_⟩
  · intro hnil
    rw [heq, if_pos (hzero.mpr hnil)]
  · intro hne
    refine ⟨by rw [heq, if_neg (fun hz => hne (hzero.mp hz))], ?_, ?_, ?_⟩
    · exact fun c hc => ⟨trueMaxCol_le ws c hc, trueMaxRow_le ws c hc⟩
    · exact trueMaxCol_mem ws hne
    · exact trueMaxRow_mem ws hne
  · intro book sheetIndex pa pb pbg pf hws hnil
    unfold to_typst
    simp only [hws, heq, if_pos (hzero.mpr hnil)]
  · intro book sheetIndex pa pb pbg pf mcs hws hne hmcs
    have hdims : get_table_dimensions ws =
        Except.ok (trueMaxCol ws, trueMaxRow ws) := by
      rw [heq, if_neg (fun hz => hne (hzero.mp hz))]
    rw [to_typst_eq book sheetIndex pa pb pbg pf ws (trueMaxCol ws)
      (trueMaxRow ws) mcs hws hdims hmcs]
    rcases hbr : buildRows ws mcs pa pb pbg pf (trueMaxCol ws)
        (List.range' 1 (trueMaxRow ws)) with e | rows
    · refine Or.inr ?_
      have ⟨rowNum, _, hpr⟩ := buildRows_error ws mcs pa pb pbg pf
        (trueMaxCol ws) (List.range' 1 (trueMaxRow ws)) e hbr
      have hpc := processRow_error_inv mcs pa pb pbg pf (trueMaxCol ws)
        rowNum (getCollectionByRow ws rowNum) e hpr
      have ⟨colNum, cell, _, _, hmap, herr, hmsg⟩ := processCols_error mcs
        pa pb pbg pf rowNum
        (buildColCellMap (trueMaxCol ws) (getCollectionByRow ws rowNum))
        (List.range' 1 (trueMaxCol ws)) e hpc
      have hmem := (buildColCellMap_mem (trueMaxCol ws)
        (getCollectionByRow ws rowNum) (colNum - 1) cell hmap).1
      refine ⟨cell, ((mem_getCollectionByRow ws rowNum cell).mp hmem).1, ?_⟩
      rw [← hmsg]
    · exact Or.inl ⟨_, rfl⟩

/-- C5 witness: the dimension scan on the concrete merged workbook. -/
theorem dimension_scanner_spec_witness :
    get_table_dimensions exWsMergeErr =
      Except.ok (trueMaxCol exWsMergeErr, trueMaxRow exWsMergeErr) :=
  ((dimension_scanner_spec exWsMergeErr (by decide)).2.2.1 (by decide)).1

/-- C4 counterexample: the workbook `exBookMergeErr` contains a
formula-error cell (B1), yet the conversion succeeds, because B1 is
merge-suppressed under "A1:B1" — refuting "if any cell whose raw value
is flagged as a formula error exists, the call fails". -/
theorem error_cell_counterexample :
    (∃ c ∈ exWsMergeErr.cells, c.rawIsError = true) ∧
    to_typst exBookMergeErr 0 false false false false =
      Option.some (Except.ok
        { dimensions := { columns := [10, 10], rows := [20],
                          maxColumns := Option.some 2,
                          maxRows := Option.some 1 }
          rows := [{ row_number := 1,
                     cells := [{ value := "T", column := 1,
                                 style := Option.none }] }]
          merged_cells := [{ range := "A1:B1",
                             start := { row := 1, column := 1 },
                             stop := { row := 1, column := 2 } }] }) := by
  exact ⟨by decide, by decide⟩

/-- C4 (amended): an *occupied, non-merge-suppressed* formula-error
cell makes the conversion fail, independently of the toggle flags,
with a message naming the address of such a cell (a worksheet whose
only error cells are merge-suppressed converts successfully instead);
and `cell_value` returns the display text exactly when the raw value
is not error-flagged, the address-naming error otherwise. -/
theorem cell_value_error_spec (book : Spreadsheet) (sheetIndex : Nat)
    (pa pb pbg pf : Bool) (ws : Worksheet) (mcs : List MergedCell)
    (bad : Cell)
    (hws : book.sheets[sheetIndex]? = Option.some ws)
    (hwf : WorksheetWF ws)
    (hmcs : buildMergedCells ws.mergeCellRanges = Option.some mcs)
    (hbad : bad ∈ ws.cells) (herr : bad.rawIsError = true)
    (hnotsup : isMergedAt mcs bad.row bad.col = false) :
    (∃ bad2 ∈ ws.cells, bad2.rawIsError = true ∧
      isMergedAt mcs bad2.row bad2.col = false ∧
      to_typst book sheetIndex pa pb pbg pf =
        Option.some (Except.error
          ("Error in cell " ++ bad2.coordinateString))) ∧
    (∀ c : Cell, c.rawIsError = false →
      cell_value c = Except.ok c.displayValue) ∧
    (∀ c : Cell, c.rawIsError = true →
      cell_value c = Except.error
        ("Error in cell " ++ c.coordinateString)) := by
  refine ⟨?_, ?_, ?_⟩
  · have hne : ws.cells ≠ [] := fun hnil => by
      rw [hnil] at hbad
      cases hbad
    have hdims : get_table_dimensions ws =
        Except.ok (trueMaxCol ws, trueMaxRow ws) := by
      rw [get_table_dimensions_eq ws (fun c hc => (hwf.1 c hc).2.2),
        if_neg (fun hz => hne ((trueMax_zero_iff ws
          (fun c hc => ⟨(hwf.1 c hc).1, (hwf.1 c hc).2.1⟩)).mp hz))]
    rw [to_typst_eq book sheetIndex pa pb pbg pf ws (trueMaxCol ws)
      (trueMaxRow ws) mcs hws hdims hmcs]
    rcases hbr : buildRows ws mcs pa pb pbg pf (trueMaxCol ws)
        (List.range' 1 (trueMaxRow ws)) with e | rows
    · have ⟨rowNum, _, hpr⟩ := buildRows_error ws mcs pa pb pbg pf
        (trueMaxCol ws) (List.range' 1 (trueMaxRow ws)) e hbr
      have hpc := processRow_error_inv mcs pa pb pbg pf (trueMaxCol ws)
        rowNum (getCollectionByRow ws rowNum) e hpr
      have ⟨colNum, cell, hcolmem, hm, hmap, herr2, hmsg⟩ :=
        processCols_error mcs pa pb pbg pf rowNum
          (buildColCellMap (trueMaxCol ws) (getCollectionByRow ws rowNum))
          (List.range' 1 (trueMaxCol ws)) e hpc
      have ⟨hmem, hslot⟩ := buildColCellMap_mem (trueMaxCol ws)
        (getCollectionByRow ws rowNum) (colNum - 1) cell hmap
      have ⟨hmemw, hrow⟩ := (mem_getCollectionByRow ws rowNum cell).mp hmem
      have hpcell := wf_parse ws hwf.1 cell hmemw
      rw [hpcell] at hslot
      have hcol1 : 1 ≤ colNum := by
        rcases List.mem_range'.mp hcolmem with ⟨i, _, hi⟩
        omega
      have hcc : colNum = cell.col := by
        have := (hwf.1 cell hmemw).1
        omega
      refine ⟨cell, hmemw, herr2, ?_, ?_⟩
      · rw [hrow, ← hcc]
        exact hm
      · rw [← hmsg]
    · exfalso
      have hrmem : bad.row ∈ List.range' 1 (trueMaxRow ws) := by
        have h1 := (hwf.1 bad hbad).2.1
        have h2 := trueMaxRow_le ws bad hbad
        exact List.mem_range'.mpr ⟨bad.row - 1, by omega, by omega⟩
      have ⟨rd, hrd⟩ := buildRows_ok_forall ws mcs pa pb pbg pf
        (trueMaxCol ws) (List.range' 1 (trueMaxRow ws)) rows hbr
        bad.row hrmem
      have hcells : ∃ cells, processCols mcs pa pb pbg pf bad.row
          (buildColCellMap (trueMaxCol ws) (getCollectionByRow ws bad.row))
          (List.range' 1 (trueMaxCol ws)) = Except.ok cells := by
        unfold processRow at hrd
        rcases hpc : processCols mcs pa pb pbg pf bad.row
            (buildColCellMap (trueMaxCol ws)
              (getCollectionByRow ws bad.row))
            (List.range' 1 (trueMaxCol ws)) with e2 | cells
        · simp only [hpc] at hrd
          cases hrd
        · exact ⟨cells, rfl⟩
      have ⟨cells, hpc⟩ := hcells
      have hcmem : bad.col ∈ List.range' 1 (trueMaxCol ws) := by
        have h1 := (hwf.1 bad hbad).1
        have h2 := trueMaxCol_le ws bad hbad
        exact List.mem_range'.mpr ⟨bad.col - 1, by omega, by omega⟩
      have hbadrow : bad ∈ getCollectionByRow ws bad.row :=
        (mem_getCollectionByRow ws bad.row bad).mpr ⟨hbad, rfl⟩
      have hsurv := buildColCellMap_survives (trueMaxCol ws)
        (getCollectionByRow ws bad.row)
        (wf_filter_pairwise ws hwf bad.row) bad hbadrow
        (by
          rw [wf_parse ws hwf.1 bad hbad]
          have h1 := (hwf.1 bad hbad).1
          have h2 := trueMaxCol_le ws bad hbad
          omega)
      rw [wf_parse ws hwf.1 bad hbad] at hsurv
      have := processCols_ok_forall mcs pa pb pbg pf bad.row
        (buildColCellMap (trueMaxCol ws) (getCollectionByRow ws bad.row))
        (List.range' 1 (trueMaxCol ws)) cells hpc bad.col hcmem hnotsup
        bad hsurv
      rw [herr] at this
      cases this
  · intro c hc
    unfold cell_value
    rw [if_neg (by simp [hc])]
  · intro c hc
    unfold cell_value
    rw [if_pos hc]

/-- C4 witness: the workbook with an unmerged error cell at B1 fails
naming B1; and `cell_value` on the two concrete cells. -/
theorem cell_value_error_spec_witness :
    (∃ bad2 ∈ exWsErr.cells, bad2.rawIsError = true ∧
      isMergedAt [] bad2.row bad2.col = false ∧
      to_typst exBookErr 0 true true true true =
        Option.some (Except.error
          ("Error in cell " ++ bad2.coordinateString))) ∧
    (∀ c : Cell, c.rawIsError = false →
      cell_value c = Except.ok c.displayValue) ∧
    (∀ c : Cell, c.rawIsError = true →
      cell_value c = Except.error
        ("Error in cell " ++ c.coordinateString)) :=
  cell_value_error_spec exBookErr 0 true true true true exWsErr []
    exCellB1Err (by decide) (by decide) (by decide) (by decide) (by decide)
    (by decide)

/-- C9 witness: the workbook whose only error cell B1 is suppressed by
"A1:B1" converts successfully. -/
theorem suppressed_error_cells_spec_witness :
    ∃ td, to_typst exBookMergeErr 0 true true true true =
        Option.some (Except.ok td) ∧
      ∀ rd ∈ td.rows, ∀ cd ∈ rd.cells,
        isMergedAt [{ range := "A1:B1", start := { row := 1, column := 1 },
                      stop := { row := 1, column := 2 } }]
          rd.row_number cd.column = false :=
  suppressed_error_cells_spec exBookMergeErr 0 true true true true
    exWsMergeErr
    [{ range := "A1:B1", start := { row := 1, column := 1 },
       stop := { row := 1, column := 2 } }]
    (by decide) (by decide) (by decide) (by decide) (by decide)

/-- C7: the width/height arrays have length exactly `max_col`/`max_row`;
a slot holds the sheet default unless an explicit 1-based dimension
record names it (then it holds that record's value); records beyond the
maximum are ignored (they cannot name any slot below the maximum, and
every in-range slot is governed by the two previous clauses); and in
record mode `to_typst` stores both arrays without any rescaling. -/
theorem size_resolver_spec (ws : Worksheet) (maxCol maxRow : Nat)
    (dW dH : Rat)
    (hposc : ∀ cd ∈ ws.columnDimensions, 1 ≤ cd.colNum)
    (hposr : ∀ rd ∈ ws.rowDimensions, 1 ≤ rd.rowNum)
    (hdistc : ws.columnDimensions.Pairwise (fun a b => a.colNum ≠ b.colNum))
    (hdistr : ws.rowDimensions.Pairwise (fun a b => a.rowNum ≠ b.rowNum)) :
    (get_column_widths ws maxCol dW).length = maxCol ∧
    (get_row_heights ws maxRow dH).length = maxRow ∧
    (∀ i < maxCol, (∀ cd ∈ ws.columnDimensions, cd.colNum ≠ i + 1) →
      (get_column_widths ws maxCol dW)[i]? = Option.some dW) ∧
    (∀ cd ∈ ws.columnDimensions, cd.colNum ≤ maxCol →
      (get_column_widths ws maxCol dW)[cd.colNum - 1]? =
        Option.some cd.width) ∧
    (∀ i < maxRow, (∀ rd ∈ ws.rowDimensions, rd.rowNum ≠ i + 1) →
      (get_row_heights ws maxRow dH)[i]? = Option.some dH) ∧
    (∀ rd ∈ ws.rowDimensions, rd.rowNum ≤ maxRow →
      (get_row_heights ws maxRow dH)[rd.rowNum - 1]? =
        Option.some rd.height) ∧
    (∀ (book : Spreadsheet) (sheetIndex : Nat) (pa pb pbg pf : Bool)
      (td : TableData) (ws2 : Worksheet),
      book.sheets[sheetIndex]? = Option.some ws2 →
      to_typst book sheetIndex pa pb pbg pf = Option.some (Except.ok td) →
      ∃ mc mr, get_table_dimensions ws2 = Except.ok (mc, mr) ∧
        td.dimensions.columns =
          get_column_widths ws2 mc ws2.formatProperties.defaultColumnWidth ∧
        td.dimensions.rows =
          get_row_heights ws2 mr ws2.formatProperties.defaultRowHeight ∧
        td.dimensions.maxColumns = Option.some mc ∧
        td.dimensions.maxRows = Option.some mr) := by
  refine ⟨?_, ?_, ?_, ?_, ?_, ?_, ?_⟩
  · rw [get_column_widths_eq, setSlots_length, List.length_replicate]
  · rw [get_row_heights_eq, setSlots_length, List.length_replicate]
  · intro i hi hno
    rw [get_column_widths_eq, setSlots_untouched _ _ _ (by
      intro p hp
      rcases List.mem_map.mp hp with ⟨cd, hcd, rfl⟩
      have := hposc cd hcd
      have := hno cd hcd
      simp only []
      omega)]
    exact List.getElem?_replicate_of_lt hi
  · intro cd hcd hle
    rw [get_column_widths_eq]
    have := setSlots_named
      (ws.columnDimensions.map (fun cd => (cd.colNum, cd.width)))
      (List.replicate maxCol dW)
      (by
        intro p hp
        rcases List.mem_map.mp hp with ⟨cd2, hcd2, rfl⟩
        exact hposc cd2 hcd2)
      (List.pairwise_map.mpr hdistc)
      (cd.colNum, cd.width) (List.mem_map_of_mem _ hcd)
      (by
        rw [List.length_replicate]
        have := hposc cd hcd
        simp only []
        omega)
    exact this
  · intro i hi hno
    rw [get_row_heights_eq, setSlots_untouched _ _ _ (by
      intro p hp
      rcases List.mem_map.mp hp with ⟨rd, hrd, rfl⟩
      have := hposr rd hrd
      have := hno rd hrd
      simp only []
      omega)]
    exact List.getElem?_replicate_of_lt hi
  · intro rd hrd hle
    rw [get_row_heights_eq]
    have := setSlots_named
      (ws.rowDimensions.map (fun rd => (rd.rowNum, rd.height)))
      (List.replicate maxRow dH)
      (by
        intro p hp
        rcases List.mem_map.mp hp with ⟨rd2, hrd2, rfl⟩
        exact hposr rd2 hrd2)
      (List.pairwise_map.mpr hdistr)
      (rd.rowNum, rd.height) (List.mem_map_of_mem _ hrd)
      (by
        rw [List.length_replicate]
        have := hposr rd hrd
        simp only []
        omega)
    exact this
  · intro book sheetIndex pa pb pbg pf td ws2 hws2 hok
    have ⟨ws3, mc, mr, mcs, rows, hws3, hdims, hmcs, hbr, htd⟩ :=
      to_typst_ok_inv book sheetIndex pa pb pbg pf td hok
    have hws23 : ws2 = ws3 := by
      rw [hws2] at hws3
      exact Option.some.inj hws3
    subst hws23
    exact ⟨mc, mr, hdims, by rw [htd], by rw [htd], by rw [htd],
      by rw [htd]⟩

/-- C7 witness: the arrays of the concrete worksheet with one explicit
column-width record and one explicit row-height record. -/
theorem size_resolver_spec_witness :
    (get_column_widths exWsDims 1 10)[(1 : Nat) - 1]? =
      Option.some (42 : Rat) :=
  (size_resolver_spec exWsDims 1 1 10 20 (by decide) (by decide)
      (by decide) (by decide)).2.2.2.1
    { colNum := 1, width := 42 } (by decide) (by decide)

end ReXLlenT
